import Mathlib

/-!
Verification development for `scripts/insert_tableau_csv.py`.

The script is a single-pass tool: it normalizes the CSV path to a
Windows-style string, samples the CSV to infer column types, splices a
`textscan` datasource subtree into the workbook XML, links it to every
worksheet view, backs the workbook up, and rewrites the file.

The embedding below translates each Python function into a Lean function
over an explicit XML-tree type and an association-list file system.  The
runtime platform is the one the script documents (WSL / Linux), so
`os.sep` is `"/"` throughout; environment-dependent sub-results (the
`uuid4` token, the parsed XML, the decoded CSV rows, `os.path.abspath`)
are passed as explicit parameters.
-/

namespace InsertTableauCsv

/-! ### Small Python string/list helpers -/

/-- Model of Python `str.rfind(c)`: index of the last occurrence of `c`,
`-1` when absent. -/
def pyRfindAux (c : Char) : List Char → Nat → Int → Int
  | [], _, acc => acc
  | x :: xs, i, acc => pyRfindAux c xs (i + 1) (if x = c then Int.ofNat i else acc)

/-- Model of Python `str.rfind(c)` on the character list of a string. -/
def pyRfind (c : Char) (cs : List Char) : Int :=
  pyRfindAux c cs 0 (-1)

/-- Model of Python `str.strip()`: drop leading and trailing whitespace. -/
def pyStrip (s : String) : String :=
  String.mk (((s.data.dropWhile Char.isWhitespace).reverse.dropWhile Char.isWhitespace).reverse)

/-- Model of Python `str.upper()` (ASCII case mapping suffices here). -/
def pyUpper (s : String) : String :=
  String.mk (s.data.map Char.toUpper)

/-- Model of Python `str.lower()` (ASCII case mapping suffices here). -/
def pyLower (s : String) : String :=
  String.mk (s.data.map Char.toLower)

/-- Model of Python `s.replace(a, b)` for one-character `a` and `b` (the
script only ever replaces `"/"` by `os.sep`, both single characters). -/
def pyReplaceChar (s : String) (a b : Char) : String :=
  String.mk (s.data.map (fun c => if c = a then b else c))

/-- Model of Python `s.startswith(pre)`. -/
def strStartsWith (s pre : String) : Bool :=
  pre.data.isPrefixOf s.data

/-- Test whether a string ends with the character `c`. -/
def strEndsWithChar (s : String) (c : Char) : Bool :=
  s.data.getLast? = some c

/-- Split a character list at every occurrence of `sep` (Python
`str.split(sep)` for a one-character separator keeps empty pieces). -/
def splitOnChar (sep : Char) : List Char → List (List Char)
  | [] => [[]]
  | c :: rest =>
    match splitOnChar sep rest with
    | [] => []
    | h :: t => if c = sep then [] :: h :: t else (c :: h) :: t

/-- Model of Python `s.split(sep)` for a one-character separator. -/
def strSplitChar (sep : Char) (s : String) : List String :=
  (splitOnChar sep s.data).map String.mk

/-- Model of POSIX `os.path.splitext`: split at the last dot of the base
name, except when every character between the last separator and that dot
is itself a dot (CPython `genericpath._splitext`). -/
def splitext (p : String) : String × String :=
  let cs := p.data
  let sep := pyRfind '/' cs
  let dot := pyRfind '.' cs
  if sep < dot then
    let dotN := dot.toNat
    let fiN := (sep + 1).toNat
    if ((cs.drop fiN).take (dotN - fiN)).all (fun c => c = '.') then (p, "")
    else (String.mk (cs.take dotN), String.mk (cs.drop dotN))
  else (p, "")

/-- Model of POSIX `os.path.split`: cut after the last `/`, then strip
trailing slashes from the head unless the head is all slashes. -/
def pySplitPath (p : String) : String × String :=
  let cs := p.data
  let idx := (pyRfind '/' cs + 1).toNat
  let head := cs.take idx
  let tail := cs.drop idx
  let head2 :=
    if head ≠ [] ∧ ¬ head.all (fun c => c = '/') then
      (head.reverse.dropWhile (fun c => c = '/')).reverse
    else head
  (String.mk head2, String.mk tail)

/-- Model of joining one more component in POSIX `os.path.join`. -/
def joinOne (path b : String) : String :=
  if strStartsWith b "/" then b
  else if path = "" ∨ strEndsWithChar path '/' then path ++ b
  else path ++ "/" ++ b

/-- Model of POSIX `os.path.join(*parts)` for a non-empty argument list. -/
def posixJoin : List String → String
  | [] => ""
  | p :: ps => ps.foldl joinOne p

/-! ### Path normalizer (`to_windows_path`, `split_dir_filename_windows`)

Source lines 34-68.  `os.path.normpath`/`abspath` depend on the process
working directory, so the function below receives the already absolute,
normalized path; likewise the `os.path.relpath(norm, cwd)` result of the
`--windows-root` branch is passed as an explicit `rel` parameter (`none`
models the swallowed exception).  On the documented platform `os.sep` is
`"/"`. -/

/-- Embedding of `to_windows_path` (lines 34-61), applied to the absolute
normalized form of the input path. -/
def to_windows_path (norm : String) (windowsRoot : Option String)
    (rel : Option String) : String :=
  if strStartsWith norm "/mnt/" then
    let parts := strSplitChar '/' norm
    if parts.length > 3 then
      pyUpper (parts.getD 2 "") ++ ":" ++ "/" ++ posixJoin (parts.drop 3)
    else
      windowsRootBranch norm windowsRoot rel
  else
    windowsRootBranch norm windowsRoot rel
where
  /-- Lines 52-61: the `--windows-root` fallback and the final
  `norm.replace("/", os.sep)` (a no-op on the POSIX platform). -/
  windowsRootBranch (norm : String) (windowsRoot : Option String)
      (rel : Option String) : String :=
    match windowsRoot with
    | some wr =>
      if wr ≠ "" then
        match rel with
        | some r =>
          if ¬ strStartsWith r ".." then pyReplaceChar (joinOne wr r) '/' '/'
          else pyReplaceChar norm '/' '/'
        | none => pyReplaceChar norm '/' '/'
      else pyReplaceChar norm '/' '/'
    | none => pyReplaceChar norm '/' '/'

/-- Embedding of `split_dir_filename_windows` (lines 64-68). -/
def split_dir_filename_windows (winPath : String) : String × String :=
  let df := pySplitPath winPath
  (pyReplaceChar df.1 '/' '/', df.2)

/-! ### Type inference (`guess_type`, lines 71-86) -/

/-- Drop one leading `+`/`-` sign, as the leading `[+-]?` of both regexes. -/
def dropSign : List Char → List Char
  | [] => []
  | c :: cs => if c == '+' || c == '-' then cs else c :: cs

/-- Embedding of the nested `is_int`: full match of `[+-]?\d+` (the script
always feeds it ASCII CSV text, so `\d` is modelled as an ASCII digit). -/
def is_int (s : String) : Bool :=
  let r := dropSign s.data
  !r.isEmpty && r.all Char.isDigit

/-- Optional-exponent part of the real regex: full match of
`(?:[eE][+-]?\d+)?`. -/
def expPart : List Char → Bool
  | [] => true
  | c :: cs =>
    (c == 'e' || c == 'E') &&
      (let r := dropSign cs
       !r.isEmpty && r.all Char.isDigit)

/-- Mantissa-and-exponent part of the real regex after the optional sign:
full match of `(?:\d+\.\d*|\d*\.\d+|\d+)(?:[eE][+-]?\d+)?`.  The character
classes of the alternatives are disjoint, so the greedy parse below is the
regex match. -/
def realCore (cs : List Char) : Bool :=
  let ip := cs.takeWhile Char.isDigit
  match cs.dropWhile Char.isDigit with
  | [] => !ip.isEmpty && expPart []
  | c :: rest2 =>
    if c = '.' then
      let frac := rest2.takeWhile Char.isDigit
      let rest3 := rest2.dropWhile Char.isDigit
      (!ip.isEmpty || !frac.isEmpty) && expPart rest3
    else !ip.isEmpty && expPart (c :: rest2)

/-- Embedding of the nested `is_real`: full match of
`[+-]?(?:\d+\.\d*|\d*\.\d+|\d+)(?:[eE][+-]?\d+)?`. -/
def is_real (s : String) : Bool :=
  realCore (dropSign s.data)

/-- Embedding of `guess_type` (lines 71-86). -/
def guess_type (samples : List String) : String :=
  let onlyNonEmpty := samples.filter (fun s => s ≠ "")
  if onlyNonEmpty.isEmpty then "string"
  else if onlyNonEmpty.all is_int then "integer"
  else if onlyNonEmpty.all is_real then "real"
  else "string"

/-! ### CSV sampler (`sample_csv_columns`, lines 89-123)

Opening the file and the encoding-fallback loop are environment effects;
the function below receives the decoded row list produced by the first
succeeding encoding (`none` when no encoding yields a header row, which
covers the empty file as well: `next(reader)` raises `StopIteration`,
caught by the `except` clause, so every encoding "fails"). -/

/-- Replacement of empty header cells by positional names (line 101). -/
def fixHeaders (hs : List String) : List String :=
  hs.enum.map (fun p => if p.2 = "" then "col_" ++ toString p.1 else p.2)

/-- Padding/truncation of one raw row to the header count (line 108). -/
def padTruncate (row : List String) (n : Nat) : List String :=
  (row ++ List.replicate n "").take n

/-- Rows retained by the sampling loop (lines 102-109): the first
`maxRows` data rows, each padded/truncated to the header count. -/
def sampleRows (dataRows : List (List String)) (maxRows n : Nat) :
    List (List String) :=
  (dataRows.take maxRows).map (fun r => padTruncate r n)

/-- Per-column transposition with stripping (lines 117-120).  Every
sampled row has exactly `n` entries, so `enumerate` visits indices
`0..n-1` and column `i` collects the stripped `i`-th entries. -/
def colSamples (samples : List (List String)) (n : Nat) :
    List (List String) :=
  (List.range n).map (fun i => samples.map (fun r => pyStrip (r.getD i "")))

/-- Embedding of `sample_csv_columns` (lines 89-123).  `readRows` is the
outcome of the encoding loop; `Except.error` models the `RuntimeError`. -/
def sample_csv_columns (readRows : Option (List (List String)))
    (csvPath : String) (maxRows : Nat) :
    Except String (List String × List String) :=
  match readRows with
  | none => .error ("Unable to read CSV headers from " ++ csvPath)
  | some rows =>
    match rows with
    | [] => .error ("Unable to read CSV headers from " ++ csvPath)
    | hrow :: dataRows =>
      let headers := fixHeaders hrow
      if headers.isEmpty then
        .error ("Unable to read CSV headers from " ++ csvPath)
      else
        let samples := sampleRows dataRows maxRows headers.length
        (.ok (headers, (colSamples samples headers.length).map guess_type))

/-- Embedding of `make_table_attr` (lines 126-130). -/
def make_table_attr (filename : String) : String :=
  let be := splitext filename
  let extNoDot :=
    if strStartsWith be.2 "." then pyLower (String.mk (be.2.data.drop 1))
    else pyLower be.2
  "[" ++ be.1 ++ "#" ++ extNoDot ++ "]"

/-! ### XML tree model

An `ElementTree` element is a tag, an ordered attribute dictionary and an
ordered child list.  The Python code mutates elements in place; the
embedding rebuilds the tree functionally. -/

/-- XML element: tag, attributes in insertion order, children. -/
inductive XElem : Type where
  | mk (tag : String) (attrs : List (String × String)) (children : List XElem)

/-- Tag of an element. -/
def XElem.tag : XElem → String
  | .mk t _ _ => t

/-- Attribute list of an element. -/
def XElem.attrs : XElem → List (String × String)
  | .mk _ a _ => a

/-- Child list of an element. -/
def XElem.children : XElem → List XElem
  | .mk _ _ c => c

/-- Replace the child list, keeping tag and attributes. -/
def XElem.withChildren : XElem → List XElem → XElem
  | .mk t a _, c => .mk t a c

instance : Inhabited XElem := ⟨.mk "" [] []⟩

/-- Lookup in an ordered string dictionary (first binding wins). -/
def lookupPair : List (String × String) → String → Option String
  | [], _ => none
  | kv :: rest, key => if kv.1 = key then some kv.2 else lookupPair rest key

/-- Update in an ordered string dictionary: overwrite the first binding in
place, or append a new one (Python `dict` assignment). -/
def setPair : List (String × String) → String → String → List (String × String)
  | [], key, v => [(key, v)]
  | kv :: rest, key, v =>
    if kv.1 = key then (key, v) :: rest else kv :: setPair rest key v

/-- Model of `Element.get(key)`. -/
def XElem.getAttr (e : XElem) (k : String) : Option String :=
  lookupPair e.attrs k

/-- Model of `Element.get(key, default)`. -/
def XElem.getAttrD (e : XElem) (k dflt : String) : String :=
  (lookupPair e.attrs k).getD dflt

/-- Model of `Element.set(key, value)`. -/
def XElem.setAttr (e : XElem) (k v : String) : XElem :=
  match e with
  | .mk t a c => .mk t (setPair a k v) c

/-- Model of `Element.find(tag)` for a plain tag: first child so tagged. -/
def XElem.findTag (e : XElem) (t : String) : Option XElem :=
  e.children.find? (fun c => c.tag = t)

/-- Model of `Element.findall(tag)` for a plain tag. -/
def XElem.findAllTag (e : XElem) (t : String) : List XElem :=
  e.children.filter (fun c => c.tag = t)

/-- Model of `Element.findall("a/b")`: the matching grandchildren in
document order. -/
def XElem.findAllPath2 (e : XElem) (t1 t2 : String) : List XElem :=
  (e.findAllTag t1).flatMap (fun c => c.findAllTag t2)

/-! ### Datasource synthesizer (`ensure_datasources_node`,
`add_textscan_datasource`, lines 133-226) -/

/-- Insert an element at an index, clamping past the end
(Python `list.insert`). -/
def listInsertAt : Nat → XElem → List XElem → List XElem
  | _, x, [] => [x]
  | 0, x, ys => x :: ys
  | n + 1, x, y :: ys => y :: listInsertAt n x ys

/-- Replace the first child satisfying `p` by its `f`-image (the in-place
mutation of the element that `find` located). -/
def updateFirstChild (p : XElem → Bool) (f : XElem → XElem) :
    List XElem → List XElem
  | [] => []
  | c :: cs => if p c then f c :: cs else c :: updateFirstChild p f cs

/-- Embedding of `ensure_datasources_node` (lines 133-147). -/
def ensure_datasources_node (root : XElem) : XElem :=
  if (root.children.any (fun c => c.tag = "datasources")) then root
  else
    let ds := XElem.mk "datasources" [] []
    match root.children.findIdx? (fun c => c.tag = "preferences") with
    | some idx => root.withChildren (listInsertAt (idx + 1) ds root.children)
    | none => root.withChildren (ds :: root.children)

/-- Matching test of the update loop (lines 160-167): the datasource has a
connection child of class `textscan` whose `filename` attribute is
present, non-empty and equal to the new filename. -/
def matchesTextscan (filename : String) (ds : XElem) : Bool :=
  match ds.findTag "connection" with
  | none => false
  | some conn =>
    decide (conn.getAttr "class" = some "textscan") &&
      (match conn.getAttr "filename" with
       | some f => decide (f ≠ "") && decide (f = filename)
       | none => false)

/-- Predicate selecting the children the `findall("datasource")` loop
would stop at. -/
def isMatchingDS (filename : String) (ds : XElem) : Bool :=
  decide (ds.tag = "datasource") && matchesTextscan filename ds

/-- Update of the matched connection (lines 169-174): set directory and
filename, and refresh the first `relation` child when present. -/
def updateConn (directory filename : String) (conn : XElem) : XElem :=
  let conn2 := (conn.setAttr "directory" directory).setAttr "filename" filename
  conn2.withChildren
    (updateFirstChild (fun c => c.tag = "relation")
      (fun rel =>
        (rel.setAttr "name" filename).setAttr "table" (make_table_attr filename))
      conn2.children)

/-- Update of a matched datasource (lines 168-182), returning the mutated
element together with the `(name, caption)` the function returns. -/
def updateMatchedDatasource (directory filename dsCaption dsName : String)
    (ds : XElem) : XElem × String × String :=
  let ds1 := ds.withChildren
    (updateFirstChild (fun c => c.tag = "connection")
      (updateConn directory filename) ds.children)
  let ds2 := if dsCaption ≠ "" then ds1.setAttr "caption" dsCaption else ds1
  let keptName :=
    match ds2.getAttr "name" with
    | some n => if n = "" then dsName else n
    | none => dsName
  let ds3 :=
    match ds2.getAttr "name" with
    | some n => if n = "" then ds2.setAttr "name" dsName else ds2
    | none => ds2.setAttr "name" dsName
  (ds3, keptName, ds3.getAttrD "caption" dsCaption)

/-- The `for existing in ds_container.findall("datasource")` loop: walk
the children, update the first matching datasource in place, and report
its `(name, caption)`; `none` when no child matches. -/
def updateFirstMatch (directory filename dsCaption dsName : String) :
    List XElem → List XElem × Option (String × String)
  | [] => ([], none)
  | c :: cs =>
    if isMatchingDS filename c then
      let r := updateMatchedDatasource directory filename dsCaption dsName c
      (r.1 :: cs, some r.2)
    else
      let r := updateFirstMatch directory filename dsCaption dsName cs
      (c :: r.1, r.2)

/-- The `column` children of the new `columns` block (lines 213-218). -/
def columnElems (headers types : List String) : List XElem :=
  (headers.zip types).enum.map
    (fun p =>
      XElem.mk "column"
        [("datatype", p.2.2), ("name", p.2.1), ("ordinal", toString p.1)] [])

/-- The freshly built datasource subtree (lines 184-221). -/
def newDatasourceElem (directory filename dsCaption dsName : String)
    (headers types : List String) : XElem :=
  XElem.mk "datasource"
    [("caption", dsCaption), ("inline", "true"), ("name", dsName),
     ("version", "18.1")]
    [XElem.mk "connection"
       [("class", "textscan"), ("directory", directory),
        ("filename", filename), ("password", ""), ("server", "")]
       [XElem.mk "relation"
          [("name", filename), ("table", make_table_attr filename),
           ("type", "table")]
          [XElem.mk "columns"
             [("character-set", "UTF-8"), ("header", "yes"),
              ("locale", "en_US"), ("separator", ",")]
             (columnElems headers types)]],
     XElem.mk "aliases" [("enabled", "yes")] []]

/-- Caption defaulting of line 157: `caption or filename`. -/
def dsCaptionOf (caption : Option String) (filename : String) : String :=
  match caption with
  | some c => if c = "" then filename else c
  | none => filename

/-- Body of `add_textscan_datasource` acting on the `datasources`
container.  The CSV is sampled only in the fresh-insert branch (line 206
sits after the update loop has returned), so a sampling error surfaces
only there. -/
def addToContainer (directory filename dsCaption dsName : String)
    (sample : Except String (List String × List String))
    (container : XElem) : Except String (XElem × String × String) :=
  let r := updateFirstMatch directory filename dsCaption dsName container.children
  match r.2 with
  | some nc => .ok (container.withChildren r.1, nc.1, nc.2)
  | none =>
    match sample with
    | .error e => .error e
    | .ok ht =>
      .ok (container.withChildren
        (container.children ++
          [newDatasourceElem directory filename dsCaption dsName ht.1 ht.2]),
        dsName, dsCaption)

/-- Embedding of `add_textscan_datasource` (lines 150-226).  `directory`
and `filename` are the `split_dir_filename_windows (to_windows_path ...)`
components of the CSV path, `freshName` models the
`"textscan." + uuid4().hex[:30]` token, and `sample` the
`sample_csv_columns` outcome on the CSV file. -/
def add_textscan_datasource (root : XElem) (directory filename : String)
    (caption : Option String) (freshName : String)
    (sample : Except String (List String × List String)) :
    Except String (XElem × String × String) :=
  let root1 := ensure_datasources_node root
  let dsCaption := dsCaptionOf caption filename
  match root1.findTag "datasources" with
  | none => .error "no datasources container"
  | some container =>
    match addToContainer directory filename dsCaption freshName sample container with
    | .error e => .error e
    | .ok rnc =>
      .ok (root1.withChildren
        (updateFirstChild (fun c => c.tag = "datasources") (fun _ => rnc.1)
          root1.children),
        rnc.2.1, rnc.2.2)

/-! ### Worksheet linker (`attach_datasource_to_all_worksheets`,
lines 229-247) -/

/-- Test whether a view already references the datasource name: its first
`datasources` child has a `datasource` child with that `name`. -/
def viewLinked (dsName : String) (v : XElem) : Bool :=
  match v.findTag "datasources" with
  | some d =>
    (d.findAllTag "datasource").any (fun c => c.getAttr "name" = some dsName)
  | none => false

/-- Body of the loop for one view (lines 236-246): ensure a `datasources`
child exists, then append a reference unless one is already present.
Returns the new view and whether a reference was added. -/
def attachToView (dsName dsCaption : String) (v : XElem) : XElem × Bool :=
  let v1 :=
    if v.children.any (fun c => c.tag = "datasources") then v
    else v.withChildren (v.children ++ [XElem.mk "datasources" [] []])
  let already :=
    match v1.findTag "datasources" with
    | some d =>
      (d.findAllTag "datasource").any (fun c => c.getAttr "name" = some dsName)
    | none => false
  if already then (v1, false)
  else
    (v1.withChildren
      (updateFirstChild (fun c => c.tag = "datasources")
        (fun d =>
          d.withChildren
            (d.children ++
              [XElem.mk "datasource" [("caption", dsCaption), ("name", dsName)] []]))
        v1.children),
      true)

/-- Selector matching `ws.find("table/view")`: first `table` child that
has a `view` child. -/
def tableWithView (t : XElem) : Bool :=
  t.tag = "table" ∧ t.children.any (fun v => v.tag = "view")

/-- The view element `ws.find("table/view")` returns, when any. -/
def firstViewOf (ws : XElem) : Option XElem :=
  match ws.children.find? tableWithView with
  | none => none
  | some t => t.children.find? (fun v => v.tag = "view")

/-- Body of the loop for one worksheet (lines 232-246): worksheets
without a `table/view` node are skipped. -/
def attachToWorksheet (dsName dsCaption : String) (ws : XElem) : XElem × Bool :=
  match ws.children.find? tableWithView with
  | none => (ws, false)
  | some t =>
    match t.children.find? (fun v => v.tag = "view") with
    | none => (ws, false)
    | some v =>
      let vb := attachToView dsName dsCaption v
      let t2 := t.withChildren
        (updateFirstChild (fun c => c.tag = "view") (fun _ => vb.1) t.children)
      (ws.withChildren
        (updateFirstChild tableWithView (fun _ => t2) ws.children),
        vb.2)

/-- Map a transformer over the children satisfying `p`, accumulating the
per-child counts. -/
def mapCount (f : XElem → XElem × Bool) (p : XElem → Bool) :
    List XElem → List XElem × Nat
  | [] => ([], 0)
  | c :: cs =>
    let cb := if p c then f c else (c, false)
    let r := mapCount f p cs
    (cb.1 :: r.1, (if cb.2 then 1 else 0) + r.2)

/-- One `worksheets` node: transform its `worksheet` children. -/
def attachWorksheetsNode (dsName dsCaption : String) (w : XElem) : XElem × Nat :=
  let r := mapCount (attachToWorksheet dsName dsCaption)
    (fun c => c.tag = "worksheet") w.children
  (w.withChildren r.1, r.2)

/-- Map a transformer over the children satisfying `p`, summing the
per-child counts. -/
def mapCountN (f : XElem → XElem × Nat) (p : XElem → Bool) :
    List XElem → List XElem × Nat
  | [] => ([], 0)
  | c :: cs =>
    let cn := if p c then f c else (c, 0)
    let r := mapCountN f p cs
    (cn.1 :: r.1, cn.2 + r.2)

/-- Embedding of `attach_datasource_to_all_worksheets` (lines 229-247):
the `findall("worksheets/worksheet")` iteration visits the `worksheet`
children of every `worksheets` child, in document order. -/
def attach_datasource_to_all_worksheets (root : XElem)
    (dsName dsCaption : String) : XElem × Nat :=
  let r := mapCountN (attachWorksheetsNode dsName dsCaption)
    (fun c => c.tag = "worksheets") root.children
  (root.withChildren r.1, r.2)

/-! ### File committer and CLI (`backup_file`, `main`, lines 250-294)

The file system is an ordered association list from paths to contents
(byte strings modelled as `String`). -/

/-- File-system contents: path to file bytes, first binding wins. -/
def FS : Type := List (String × String)

/-- Model of `os.path.exists` plus `open(path, "rb").read()`. -/
def lookupFS (fs : FS) (p : String) : Option String :=
  lookupPair fs p

/-- Model of writing a file. -/
def writeFS (fs : FS) (p v : String) : FS :=
  setPair fs p v

/-- Backup path of line 252: `.backup` inserted before the extension. -/
def backup_path (p : String) : String :=
  let be := splitext p
  be.1 ++ ".backup" ++ be.2

/-- Embedding of `backup_file` (lines 250-256): copy the current bytes of
`p` to the backup path unless that path already exists.  `none` models
the `open` failure when `p` itself is absent (unreachable from `main`,
which checks existence first). -/
def backup_file (fs : FS) (p : String) : Option FS :=
  if (lookupFS fs (backup_path p)).isSome then some fs
  else
    match lookupFS fs p with
    | some content => some (writeFS fs (backup_path p) content)
    | none => none

/-- Outcome of a `main` run: `exited` models `sys.exit(code)` after the
message was printed to stderr, `raised` an uncaught exception (CPython
then exits with status 1), `finished` a normal return (exit status 0)
carrying the data of the three summary lines. -/
inductive RunResult : Type where
  | exited (code : Nat) (stderr : String)
  | raised (msg : String)
  | finished (dsCaption dsName : String) (attached : Nat)
  deriving DecidableEq

/-- Process exit status determined by a run outcome. -/
def exitStatus : RunResult → Nat
  | .exited c _ => c
  | .raised _ => 1
  | .finished _ _ _ => 0

/-- Embedding of `main` (lines 259-294).  Environment effects appear as
parameters: `parseXml` is the XML layer (`none` = parse error raised),
`csvRows` the decoded-row outcome of the CSV encoding loop, `serialize`
the `tree.write` serialization, `directory`/`filename` the
`split_dir_filename_windows (to_windows_path csvPath windowsRoot)`
components, and `freshName` the `uuid4` token. -/
def runMain (fs : FS) (parseXml : String → Option XElem)
    (csvRows : Option (List (List String))) (serialize : XElem → String)
    (wbPath csvPath : String) (caption : Option String)
    (directory filename freshName : String) : FS × RunResult :=
  match lookupFS fs wbPath with
  | none => (fs, .exited 1 ("Error: workbook not found: " ++ wbPath))
  | some wbContent =>
    match lookupFS fs csvPath with
    | none => (fs, .exited 1 ("Error: csv not found: " ++ csvPath))
    | some _ =>
      match parseXml wbContent with
      | none => (fs, .raised "XML parse error")
      | some root =>
        match backup_file fs wbPath with
        | none => (fs, .raised "workbook vanished")
        | some fs1 =>
          let sample := sample_csv_columns csvRows csvPath 500
          match add_textscan_datasource root directory filename caption
              freshName sample with
          | .error e => (fs1, .raised e)
          | .ok rnc =>
            let ra := attach_datasource_to_all_worksheets rnc.1 rnc.2.1 rnc.2.2
            (writeFS fs1 wbPath (serialize ra.1),
              .finished rnc.2.2 rnc.2.1 ra.2)

/-! ### Basic lemmas about the tree and dictionary model -/

@[simp] theorem XElem.tag_mk (t : String) (a : List (String × String))
    (c : List XElem) : (XElem.mk t a c).tag = t := rfl

@[simp] theorem XElem.attrs_mk (t : String) (a : List (String × String))
    (c : List XElem) : (XElem.mk t a c).attrs = a := rfl

@[simp] theorem XElem.children_mk (t : String) (a : List (String × String))
    (c : List XElem) : (XElem.mk t a c).children = c := rfl

@[simp] theorem XElem.tag_withChildren (e : XElem) (c : List XElem) :
    (e.withChildren c).tag = e.tag := by
  cases e; rfl

@[simp] theorem XElem.attrs_withChildren (e : XElem) (c : List XElem) :
    (e.withChildren c).attrs = e.attrs := by
  cases e; rfl

@[simp] theorem XElem.children_withChildren (e : XElem) (c : List XElem) :
    (e.withChildren c).children = c := by
  cases e; rfl

@[simp] theorem XElem.tag_setAttr (e : XElem) (k v : String) :
    (e.setAttr k v).tag = e.tag := by
  cases e; rfl

@[simp] theorem XElem.children_setAttr (e : XElem) (k v : String) :
    (e.setAttr k v).children = e.children := by
  cases e; rfl

@[simp] theorem XElem.attrs_setAttr (e : XElem) (k v : String) :
    (e.setAttr k v).attrs = setPair e.attrs k v := by
  cases e; rfl

theorem lookupPair_setPair_self (l : List (String × String)) (k v : String) :
    lookupPair (setPair l k v) k = some v := by
  induction l with
  | nil => simp [setPair, lookupPair]
  | cons kv rest ih =>
    by_cases h : kv.1 = k
    · simp [setPair, lookupPair, h]
    · simp [setPair, lookupPair, h, ih]

theorem lookupPair_setPair_ne (l : List (String × String)) (k v k' : String)
    (h : k' ≠ k) : lookupPair (setPair l k v) k' = lookupPair l k' := by
  have hne : ¬ (k = k') := fun e => h e.symm
  induction l with
  | nil => simp [setPair, lookupPair, hne]
  | cons kv rest ih =>
    by_cases hk : kv.1 = k
    · have hne2 : ¬ (kv.1 = k') := by rw [hk]; exact hne
      simp [setPair, lookupPair, hk, hne, hne2]
    · by_cases hk' : kv.1 = k'
      · simp [setPair, lookupPair, hk, hk', h]
      · simp [setPair, lookupPair, hk, hk', ih]

theorem XElem.getAttr_setAttr_self (e : XElem) (k v : String) :
    (e.setAttr k v).getAttr k = some v := by
  cases e
  simp [XElem.getAttr, lookupPair_setPair_self]

theorem XElem.getAttr_setAttr_ne (e : XElem) (k v k' : String) (h : k' ≠ k) :
    (e.setAttr k v).getAttr k' = e.getAttr k' := by
  cases e
  simp [XElem.getAttr, lookupPair_setPair_ne _ _ _ _ h]

/-!
## Claim C2 — type inference

The specification phrases the classifier independently of the code; the
definitions below (`...Spec`) transcribe those words.  The claim then is
that `guess_type` computes exactly this classification. -/

/-- Digit run of the spec's wording: one or more digit characters. -/
def specDigits : List Char → Bool
  | [] => false
  | c :: cs => c.isDigit && (cs.isEmpty || specDigits cs)

/-- Optional-sign removal, phrased on the first character. -/
def dropSignSpec (cs : List Char) : List Char :=
  if cs.head? = some '+' ∨ cs.head? = some '-' then cs.tail else cs

/-- Integer pattern of the spec: optional sign, then digits. -/
def specIntPattern (s : String) : Bool :=
  specDigits (dropSignSpec s.data)

/-- Character test: not a decimal point. -/
def notDot (c : Char) : Bool :=
  !(c == '.')

/-- Character test: not an exponent marker. -/
def notExp (c : Char) : Bool :=
  !(c == 'e') && !(c == 'E')

/-- Mantissa of the spec's real pattern: digits with an optional decimal
point (at least one digit on one of its sides). -/
def specMantissa (cs : List Char) : Bool :=
  match cs.dropWhile notDot with
  | [] => specDigits (cs.takeWhile notDot)
  | _ :: fracPart =>
    (cs.takeWhile notDot).all Char.isDigit && fracPart.all Char.isDigit &&
      (!(cs.takeWhile notDot).isEmpty || !fracPart.isEmpty)

/-- Exponent of the spec's real pattern: an `e`/`E` marker followed by an
optionally signed digit run, or nothing. -/
def specExponent : List Char → Bool
  | [] => true
  | c :: cs => (c == 'e' || c == 'E') && specDigits (dropSignSpec cs)

/-- Real pattern of the spec: optional sign, then a mantissa of digits
with an optional decimal point, then an optional exponent. -/
def specRealPattern (s : String) : Bool :=
  specMantissa ((dropSignSpec s.data).takeWhile notExp) &&
    specExponent ((dropSignSpec s.data).dropWhile notExp)

/-- Classification of one column as the spec words it: discard empty
values; with nothing left the column is a string column; otherwise all
integer-shaped values give `integer`, else all real-shaped values give
`real`, else `string`. -/
def guessTypeSpec (values : List String) : String :=
  let nonEmpty := values.filter (fun s => s ≠ "")
  if nonEmpty.isEmpty then "string"
  else if nonEmpty.all specIntPattern then "integer"
  else if nonEmpty.all specRealPattern then "real"
  else "string"

theorem specDigits_eq (l : List Char) :
    specDigits l = (!l.isEmpty && l.all Char.isDigit) := by
  induction l with
  | nil => rfl
  | cons c cs ih =>
    cases cs with
    | nil => simp [specDigits]
    | cons d ds =>
      have h1 : specDigits (c :: d :: ds) = (c.isDigit && specDigits (d :: ds)) := by
        simp [specDigits]
      rw [h1, ih]
      simp

theorem dropSignSpec_eq (cs : List Char) : dropSignSpec cs = dropSign cs := by
  cases cs with
  | nil => rfl
  | cons c t =>
    by_cases h : c = '+' ∨ c = '-'
    · rcases h with h | h <;> simp [dropSignSpec, dropSign, h]
    · push_neg at h
      simp [dropSignSpec, dropSign, h.1, h.2]

theorem takeWhile_append_of_all (p : Char → Bool) (l r : List Char)
    (h : l.all p = true) : (l ++ r).takeWhile p = l ++ r.takeWhile p := by
  induction l with
  | nil => simp
  | cons c cs ih =>
    simp only [List.all_cons, Bool.and_eq_true] at h
    simp [List.takeWhile_cons, h.1, ih h.2]

theorem dropWhile_append_of_all (p : Char → Bool) (l r : List Char)
    (h : l.all p = true) : (l ++ r).dropWhile p = r.dropWhile p := by
  induction l with
  | nil => simp
  | cons c cs ih =>
    simp only [List.all_cons, Bool.and_eq_true] at h
    simp [List.dropWhile_cons, h.1, ih h.2]

theorem dropWhile_head_false (p : Char → Bool) (l : List Char) (c : Char)
    (t : List Char) (h : l.dropWhile p = c :: t) : p c = false := by
  induction l with
  | nil => simp at h
  | cons a as ih =>
    by_cases ha : p a
    · exact ih (by simpa [List.dropWhile_cons, ha] using h)
    · rw [List.dropWhile_cons] at h
      simp [ha] at h
      rw [← h.1]
      exact Bool.of_not_eq_true ha

theorem digit_notDot (c : Char) (h : c.isDigit = true) : notDot c = true := by
  by_cases he : c = '.'
  · subst he; exact absurd h (by decide)
  · simp [notDot, he]

theorem digit_notExp (c : Char) (h : c.isDigit = true) : notExp c = true := by
  by_cases he : c = 'e'
  · subst he; exact absurd h (by decide)
  · by_cases hE : c = 'E'
    · subst hE; exact absurd h (by decide)
    · simp [notExp, he, hE]

theorem all_notDot_of_digit (l : List Char) (h : l.all Char.isDigit = true) :
    l.all notDot = true := by
  rw [List.all_eq_true] at h ⊢
  exact fun c hc => digit_notDot c (h c hc)

theorem all_notExp_of_digit (l : List Char) (h : l.all Char.isDigit = true) :
    l.all notExp = true := by
  rw [List.all_eq_true] at h ⊢
  exact fun c hc => digit_notExp c (h c hc)

theorem all_takeWhile_self (p : Char → Bool) (l : List Char) :
    (l.takeWhile p).all p = true := by
  induction l with
  | nil => simp
  | cons c cs ih =>
    by_cases h : p c
    · simp [List.takeWhile_cons, h, ih]
    · simp [List.takeWhile_cons, h]

theorem takeWhile_eq_self_of_all (p : Char → Bool) (l : List Char)
    (h : l.all p = true) : l.takeWhile p = l := by
  induction l with
  | nil => simp
  | cons c cs ih =>
    simp only [List.all_cons, Bool.and_eq_true] at h
    simp [List.takeWhile_cons, h.1, ih h.2]

theorem dropWhile_eq_nil_of_all (p : Char → Bool) (l : List Char)
    (h : l.all p = true) : l.dropWhile p = [] := by
  induction l with
  | nil => simp
  | cons c cs ih =>
    simp only [List.all_cons, Bool.and_eq_true] at h
    simp [List.dropWhile_cons, h.1, ih h.2]

theorem realCore_all_digits (ip : List Char) (hip : ip.all Char.isDigit = true) :
    realCore ip =
      (specMantissa (ip.takeWhile notExp) && specExponent (ip.dropWhile notExp)) := by
  have hE : ip.all notExp = true := all_notExp_of_digit ip hip
  have hD : ip.all notDot = true := all_notDot_of_digit ip hip
  rw [takeWhile_eq_self_of_all _ _ hE, dropWhile_eq_nil_of_all _ _ hE]
  simp only [realCore, takeWhile_eq_self_of_all _ _ hip,
    dropWhile_eq_nil_of_all _ _ hip]
  simp only [specMantissa, dropWhile_eq_nil_of_all _ _ hD,
    takeWhile_eq_self_of_all _ _ hD, specDigits_eq, hip]
  simp [expPart, specExponent]

theorem realCore_append_nondigit (ip : List Char) (c1 : Char) (rest2 : List Char)
    (hip : ip.all Char.isDigit = true) (hc1 : c1.isDigit = false) :
    realCore (ip ++ c1 :: rest2) =
      (specMantissa ((ip ++ c1 :: rest2).takeWhile notExp) &&
        specExponent ((ip ++ c1 :: rest2).dropWhile notExp)) := by
  have hipE : ip.all notExp = true := all_notExp_of_digit ip hip
  have hipD : ip.all notDot = true := all_notDot_of_digit ip hip
  have htw : (ip ++ c1 :: rest2).takeWhile Char.isDigit = ip := by
    rw [takeWhile_append_of_all _ _ _ hip, List.takeWhile_cons]
    simp [hc1]
  have hdw : (ip ++ c1 :: rest2).dropWhile Char.isDigit = c1 :: rest2 := by
    rw [dropWhile_append_of_all _ _ _ hip, List.dropWhile_cons]
    simp [hc1]
  simp only [realCore, htw, hdw]
  by_cases hdot : c1 = '.'
  · subst hdot
    simp only [if_pos rfl]
    cases hr3 : rest2.dropWhile Char.isDigit with
    | nil =>
      have hfr : rest2.takeWhile Char.isDigit = rest2 := by
        have hx := List.takeWhile_append_dropWhile (p := Char.isDigit) (l := rest2)
        rw [hr3] at hx
        simpa using hx
      have hr2all : rest2.all Char.isDigit = true := by
        rw [← hfr]; exact all_takeWhile_self _ _
      have hr2E : rest2.all notExp = true := all_notExp_of_digit rest2 hr2all
      have htwE : (ip ++ '.' :: rest2).takeWhile notExp = ip ++ '.' :: rest2 := by
        apply takeWhile_eq_self_of_all
        simp [List.all_append, hipE, hr2E, notExp]
      have hdwE : (ip ++ '.' :: rest2).dropWhile notExp = [] := by
        apply dropWhile_eq_nil_of_all
        simp [List.all_append, hipE, hr2E, notExp]
      rw [htwE, hdwE]
      simp only [specMantissa,
        dropWhile_append_of_all _ _ _ hipD, List.dropWhile_cons,
        takeWhile_append_of_all _ _ _ hipD, List.takeWhile_cons]
      simp [hr3, hfr, notDot, hip, hr2all, specExponent, expPart,
        takeWhile_eq_self_of_all _ _ (all_notDot_of_digit rest2 hr2all)]
    | cons c3 rest4 =>
      have hc3 : c3.isDigit = false := dropWhile_head_false _ _ _ _ hr3
      have hsp2 := List.takeWhile_append_dropWhile (p := Char.isDigit) (l := rest2)
      rw [hr3] at hsp2
      have hfr_all : (rest2.takeWhile Char.isDigit).all Char.isDigit = true :=
        all_takeWhile_self _ _
      obtain ⟨frac, hfall, hr2eq⟩ :
          ∃ frac, frac.all Char.isDigit = true ∧ rest2 = frac ++ c3 :: rest4 :=
        ⟨rest2.takeWhile Char.isDigit, hfr_all, hsp2.symm⟩
      subst hr2eq
      have htw2 : ((frac ++ c3 :: rest4).takeWhile Char.isDigit) = frac := by
        rw [takeWhile_append_of_all _ _ _ hfall, List.takeWhile_cons]
        simp [hc3]
      rw [htw2]
      have hfE : frac.all notExp = true := all_notExp_of_digit frac hfall
      have hfD : frac.all notDot = true := all_notDot_of_digit frac hfall
      by_cases hE : c3 = 'e' ∨ c3 = 'E'
      · have hc3E : notExp c3 = false := by
          rcases hE with h | h <;> simp [notExp, h]
        have htwE : (ip ++ '.' :: (frac ++ c3 :: rest4)).takeWhile notExp =
            ip ++ '.' :: frac := by
          rw [takeWhile_append_of_all _ _ _ hipE, List.takeWhile_cons]
          simp only [show notExp '.' = true from by decide, if_pos]
          rw [takeWhile_append_of_all _ _ _ hfE, List.takeWhile_cons, hc3E]
          simp
        have hdwE : (ip ++ '.' :: (frac ++ c3 :: rest4)).dropWhile notExp =
            c3 :: rest4 := by
          rw [dropWhile_append_of_all _ _ _ hipE, List.dropWhile_cons]
          simp only [show notExp '.' = true from by decide, if_pos]
          rw [dropWhile_append_of_all _ _ _ hfE, List.dropWhile_cons, hc3E]
          simp
        rw [htwE, hdwE]
        simp only [specMantissa,
          dropWhile_append_of_all _ _ _ hipD, List.dropWhile_cons,
          takeWhile_append_of_all _ _ _ hipD, List.takeWhile_cons]
        simp [notDot, hip, hfall, specExponent, expPart, specDigits_eq,
          dropSignSpec_eq,
          takeWhile_eq_self_of_all _ _ hfD]
      · push_neg at hE
        have hc3E : notExp c3 = true := by simp [notExp, hE.1, hE.2]
        have hc3e : (c3 == 'e' || c3 == 'E') = false := by
          simp [hE.1, hE.2]
        have htwE : (ip ++ '.' :: (frac ++ c3 :: rest4)).takeWhile notExp =
            ip ++ '.' :: (frac ++ c3 :: rest4.takeWhile notExp) := by
          rw [takeWhile_append_of_all _ _ _ hipE, List.takeWhile_cons]
          simp only [show notExp '.' = true from by decide, if_pos]
          rw [takeWhile_append_of_all _ _ _ hfE, List.takeWhile_cons, hc3E]
          simp
        rw [htwE]
        simp only [specMantissa,
          dropWhile_append_of_all _ _ _ hipD, List.dropWhile_cons,
          takeWhile_append_of_all _ _ _ hipD, List.takeWhile_cons]
        simp [notDot, expPart, hc3e, List.all_append, hc3]
  · have hc1D : notDot c1 = true := by simp [notDot, hdot]
    rw [if_neg hdot]
    by_cases hE : c1 = 'e' ∨ c1 = 'E'
    · have hc1E : notExp c1 = false := by
        rcases hE with h | h <;> simp [notExp, h]
      have htwE : (ip ++ c1 :: rest2).takeWhile notExp = ip := by
        rw [takeWhile_append_of_all _ _ _ hipE, List.takeWhile_cons, hc1E]
        simp
      have hdwE : (ip ++ c1 :: rest2).dropWhile notExp = c1 :: rest2 := by
        rw [dropWhile_append_of_all _ _ _ hipE, List.dropWhile_cons, hc1E]
        simp
      rw [htwE, hdwE]
      simp only [specMantissa, dropWhile_eq_nil_of_all _ _ hipD,
        takeWhile_eq_self_of_all _ _ hipD]
      simp [specDigits_eq, hip, specExponent, expPart, dropSignSpec_eq]
    · push_neg at hE
      have hc1E : notExp c1 = true := by simp [notExp, hE.1, hE.2]
      have hc1e : (c1 == 'e' || c1 == 'E') = false := by
        simp [hE.1, hE.2]
      have htwE : (ip ++ c1 :: rest2).takeWhile notExp =
          ip ++ c1 :: rest2.takeWhile notExp := by
        rw [takeWhile_append_of_all _ _ _ hipE, List.takeWhile_cons, hc1E]
        simp
      rw [htwE]
      have hlhs : (!ip.isEmpty && expPart (c1 :: rest2)) = false := by
        simp [expPart, hc1e]
      rw [hlhs]
      cases hdd : (ip ++ c1 :: rest2.takeWhile notExp).dropWhile notDot with
      | nil =>
        have hmt : (ip ++ c1 :: rest2.takeWhile notExp).takeWhile notDot =
            ip ++ c1 :: rest2.takeWhile notExp := by
          have hx := List.takeWhile_append_dropWhile (p := notDot)
            (l := ip ++ c1 :: rest2.takeWhile notExp)
          rw [hdd] at hx
          simpa using hx
        simp only [specMantissa, hdd, hmt]
        simp [specDigits_eq, List.all_append, hc1]
      | cons d fp =>
        have hmt : (ip ++ c1 :: rest2.takeWhile notExp).takeWhile notDot =
            ip ++ c1 :: (rest2.takeWhile notExp).takeWhile notDot := by
          rw [takeWhile_append_of_all _ _ _ hipD, List.takeWhile_cons, hc1D]
          simp
        simp only [specMantissa, hdd, hmt]
        simp [List.all_append, hc1]

theorem is_real_eq_spec (s : String) : is_real s = specRealPattern s := by
  rw [is_real, specRealPattern, dropSignSpec_eq]
  have hsplit := List.takeWhile_append_dropWhile (p := Char.isDigit)
    (l := dropSign s.data)
  have hip : ((dropSign s.data).takeWhile Char.isDigit).all Char.isDigit :=
    all_takeWhile_self _ _
  cases hrest : (dropSign s.data).dropWhile Char.isDigit with
  | nil =>
    rw [hrest, List.append_nil] at hsplit
    rw [← hsplit]
    exact realCore_all_digits _ hip
  | cons c1 rest2 =>
    have hc1 : c1.isDigit = false := dropWhile_head_false _ _ _ _ hrest
    rw [hrest] at hsplit
    rw [← hsplit]
    exact realCore_append_nondigit _ _ _ hip hc1

theorem is_int_eq_spec (s : String) : is_int s = specIntPattern s := by
  rw [is_int, specIntPattern, dropSignSpec_eq, specDigits_eq]

example : specIntPattern "-42" = true ∧ specIntPattern "4.2" = false := by decide

example : specRealPattern "-1.5e-3" = true ∧ specRealPattern ".5" = true ∧
    specRealPattern "1." = true ∧ specRealPattern "1e" = false ∧
    specRealPattern "." = false ∧ specRealPattern "1.2.3" = false := by decide

/-- Claim C2: type inference is a pure function of the stripped sampled
values of one column, classifying exactly as the spec words it — empty
values are discarded; no remaining value gives `string`; otherwise all
values matching the integer pattern (optional sign then digits) give
`integer`; otherwise all matching the real pattern (optionally signed
digits with optional decimal point and optional exponent) give `real`;
any other column gives `string`. -/
theorem C2_guess_type_matches_spec (samples : List String) :
    guess_type samples = guessTypeSpec samples := by
  have hI : is_int = specIntPattern := funext is_int_eq_spec
  have hR : is_real = specRealPattern := funext is_real_eq_spec
  simp only [guess_type, guessTypeSpec, hI, hR]

/-!
## Claims C3 and C9 — CSV sampling shape, header naming, ordinals -/

theorem padTruncate_length (row : List String) (n : Nat) :
    (padTruncate row n).length = n := by
  simp [padTruncate]

theorem colSamples_length (samples : List (List String)) (n : Nat) :
    (colSamples samples n).length = n := by
  simp [colSamples]

theorem fixHeaders_length (hs : List String) :
    (fixHeaders hs).length = hs.length := by
  simp [fixHeaders]

theorem fixHeaders_getD (hs : List String) (i : Nat) (hi : i < hs.length) :
    (fixHeaders hs).getD i "" =
      (if hs.getD i "" = "" then "col_" ++ toString i else hs.getD i "") := by
  have hif : i < (fixHeaders hs).length := by rw [fixHeaders_length]; exact hi
  rw [List.getD_eq_getElem _ _ hif, List.getD_eq_getElem _ _ hi]
  simp [fixHeaders]

theorem string_append_ne_empty (s t : String) (hs : s.data ≠ []) :
    s ++ t ≠ "" := by
  intro h
  apply hs
  have hd : (s ++ t).data = [] := by rw [h]
  rw [String.data_append] at hd
  exact (List.append_eq_nil.mp hd).1

theorem fixHeaders_ne_empty (hs : List String) (x : String)
    (hx : x ∈ fixHeaders hs) : x ≠ "" := by
  simp only [fixHeaders, List.mem_map] at hx
  obtain ⟨p, _, hpx⟩ := hx
  by_cases hp : p.2 = ""
  · rw [← hpx]
    simp only [hp, if_pos]
    exact string_append_ne_empty "col_" (toString p.1) (by decide)
  · rw [← hpx]
    simp [hp]

/-- Shared elimination: what a successful `sample_csv_columns` call
determines about its pieces. -/
theorem sample_ok_elim (csvPath : String) (maxRows : Nat) (hrow : List String)
    (dataRows : List (List String)) (headers types : List String)
    (h : sample_csv_columns (some (hrow :: dataRows)) csvPath maxRows =
      .ok (headers, types)) :
    headers = fixHeaders hrow ∧
      types = (colSamples (sampleRows dataRows maxRows (fixHeaders hrow).length)
        (fixHeaders hrow).length).map guess_type := by
  by_cases he : (fixHeaders hrow).isEmpty
  · simp [sample_csv_columns, he] at h
  · simp only [sample_csv_columns, he, Bool.false_eq_true, if_false,
      Except.ok.injEq, Prod.mk.injEq] at h
    exact ⟨h.1.symm, h.2.symm⟩

/-- Claim C3: for every CSV whose header row is readable, the types
sequence is as long as the header sequence, and every sampled data row is
padded or truncated to exactly the header count. -/
theorem C3_padding_truncation_law (csvPath : String) (maxRows : Nat)
    (hrow : List String) (dataRows : List (List String))
    (headers types : List String)
    (h : sample_csv_columns (some (hrow :: dataRows)) csvPath maxRows =
      .ok (headers, types)) :
    types.length = headers.length ∧
      ∀ r ∈ sampleRows dataRows maxRows headers.length,
        r.length = headers.length := by
  obtain ⟨hh, ht⟩ := sample_ok_elim csvPath maxRows hrow dataRows headers types h
  subst hh
  constructor
  · rw [ht, List.length_map, colSamples_length]
  · intro r hr
    simp only [sampleRows, List.mem_map] at hr
    obtain ⟨raw, _, hraw⟩ := hr
    rw [← hraw, padTruncate_length]

/-- Claim C3, witness: a concrete CSV with one short and one long row. -/
theorem C3_witness :
    (["integer", "integer"] : List String).length =
      (["a", "b"] : List String).length ∧
    ∀ r ∈ sampleRows [["1"], ["1", "2", "3"]] 500
        (["a", "b"] : List String).length,
      r.length = (["a", "b"] : List String).length :=
  C3_padding_truncation_law "f.csv" 500 ["a", "b"] [["1"], ["1", "2", "3"]]
    ["a", "b"] ["integer", "integer"] (by rfl)

theorem columnElems_length (headers types : List String)
    (h : types.length = headers.length) :
    (columnElems headers types).length = headers.length := by
  simp [columnElems, h]

theorem columnElems_getD (headers types : List String)
    (h : types.length = headers.length) (i : Nat) (hi : i < headers.length)
    (d : XElem) :
    ((columnElems headers types).getD i d).getAttr "ordinal" =
        some (toString i) ∧
      ((columnElems headers types).getD i d).getAttr "name" =
        some (headers.getD i "") := by
  have hic : i < (columnElems headers types).length := by
    rw [columnElems_length headers types h]; exact hi
  have hiz : i < (headers.zip types).length := by
    simp only [List.length_zip, h]; omega
  rw [List.getD_eq_getElem _ _ hic, List.getD_eq_getElem _ _ hi]
  simp [columnElems, XElem.getAttr, lookupPair, List.getElem_zip]

/-- Claim C9: every empty header cell at index `i` becomes `col_i` and
non-empty cells are kept; the synthesized columns block has one `column`
element per header whose `ordinal` attribute is the position and whose
`name` is that header; all emitted headers are non-empty. -/
theorem C9_header_naming_and_ordinals (csvPath : String) (maxRows : Nat)
    (hrow : List String) (dataRows : List (List String))
    (headers types : List String) (d : XElem)
    (h : sample_csv_columns (some (hrow :: dataRows)) csvPath maxRows =
      .ok (headers, types)) :
    (∀ i, i < hrow.length → headers.getD i "" =
      (if hrow.getD i "" = "" then "col_" ++ toString i
       else hrow.getD i "")) ∧
    (∀ x ∈ headers, x ≠ "") ∧
    (columnElems headers types).length = headers.length ∧
    (∀ i, i < headers.length →
      ((columnElems headers types).getD i d).getAttr "ordinal" =
          some (toString i) ∧
        ((columnElems headers types).getD i d).getAttr "name" =
          some (headers.getD i "")) := by
  obtain ⟨hh, ht⟩ := sample_ok_elim csvPath maxRows hrow dataRows headers types h
  have hlen : types.length = headers.length := by
    rw [hh, ht, List.length_map, colSamples_length]
  refine ⟨?_, ?_, columnElems_length headers types hlen, ?_⟩
  · intro i hi
    rw [hh]
    exact fixHeaders_getD hrow i hi
  · intro x hx
    rw [hh] at hx
    exact fixHeaders_ne_empty hrow x hx
  · intro i hi
    exact columnElems_getD headers types hlen i hi d

/-- Claim C9, witness: a header row with an empty middle cell. -/
theorem C9_witness :
    (∀ i, i < (["a", "", "b"] : List String).length →
      (["a", "col_1", "b"] : List String).getD i "" =
        (if (["a", "", "b"] : List String).getD i "" = ""
         then "col_" ++ toString i
         else (["a", "", "b"] : List String).getD i "")) ∧
    (∀ x ∈ (["a", "col_1", "b"] : List String), x ≠ "") ∧
    (columnElems ["a", "col_1", "b"] ["string", "string", "string"]).length =
      (["a", "col_1", "b"] : List String).length ∧
    (∀ i, i < (["a", "col_1", "b"] : List String).length →
      ((columnElems ["a", "col_1", "b"]
          ["string", "string", "string"]).getD i default).getAttr "ordinal" =
          some (toString i) ∧
        ((columnElems ["a", "col_1", "b"]
            ["string", "string", "string"]).getD i default).getAttr "name" =
          some ((["a", "col_1", "b"] : List String).getD i "")) :=
  C9_header_naming_and_ordinals "f.csv" 500 ["a", "", "b"] []
    ["a", "col_1", "b"] ["string", "string", "string"] default (by rfl)

/-!
## Claim C5 — mounted-drive path normalization

The claim predicts `to_windows_path` maps a `/mnt/c/Users/x`-shaped path
to `C:\Users\x` and that `split_dir_filename_windows` normalizes the
directory slashes to backslashes.  The script documents exactly this
(docstring: "map to `<DRIVE>:\...`", comment: "Normalize to
backslashes"), but on the WSL/Linux platform the script targets,
`os.sep` is `"/"`, so the drive rewrite emits `C:/Users/x` and both
`replace("/", os.sep)` calls are no-ops: the code contradicts its own
documentation and never produces a backslash here.
-/

/-- Claim C5: evaluation at the failing input.  The mounted-drive path
`/mnt/c/Users/x` (absolute segments `["", "mnt", "c", "Users", "x"]`)
normalizes to `C:/Users/x`, not `C:\Users\x`, and the split directory
keeps its forward slash. -/
theorem C5_mounted_drive_forward_slashes :
    to_windows_path "/mnt/c/Users/x" none none = "C:/Users/x" ∧
    split_dir_filename_windows (to_windows_path "/mnt/c/Users/x" none none) =
      ("C:/Users", "x") ∧
    to_windows_path "/mnt/c/Users/x" none none ≠ "C:\\Users\\x" ∧
    (split_dir_filename_windows
        (to_windows_path "/mnt/c/Users/x" none none)).1 ≠ "C:\\Users" := by
  refine ⟨by decide, by decide, by decide, by decide⟩

/-!
## Claims C4, C6, C7 — backup law, CSV-unreadable abort, missing inputs -/

theorem str_mk_append (a b : List Char) :
    String.mk a ++ String.mk b = String.mk (a ++ b) := rfl

theorem str_append_empty (s : String) : s ++ "" = s := by
  cases s with
  | mk data =>
    rw [show ("" : String) = String.mk [] from rfl, str_mk_append]
    simp

theorem splitext_concat (p : String) : (splitext p).1 ++ (splitext p).2 = p := by
  unfold splitext
  dsimp only
  split
  · split
    · exact str_append_empty p
    · simp only
      rw [str_mk_append, List.take_append_drop]
  · exact str_append_empty p

theorem backup_path_length (p : String) :
    (backup_path p).length = p.length + 7 := by
  have hc : (splitext p).1.length + (splitext p).2.length = p.length := by
    have h := congrArg String.length (splitext_concat p)
    rwa [String.length_append] at h
  rw [backup_path]
  simp only [String.length_append]
  have h7 : (".backup" : String).length = 7 := rfl
  omega

theorem backup_path_ne (p : String) : backup_path p ≠ p := by
  intro h
  have hl := congrArg String.length h
  rw [backup_path_length] at hl
  omega

theorem lookupFS_writeFS_self (fs : FS) (p v : String) :
    lookupFS (writeFS fs p v) p = some v :=
  lookupPair_setPair_self fs p v

theorem lookupFS_writeFS_ne (fs : FS) (p v q : String) (h : q ≠ p) :
    lookupFS (writeFS fs p v) q = lookupFS fs q :=
  lookupPair_setPair_ne fs p v q h

/-- After a successful `backup_file`, the original file still holds its
bytes (the backup path differs from the original path, and even a
hypothetical collision would write back identical bytes). -/
theorem lookupFS_backup_file (fs fs1 : FS) (p w : String)
    (hw : lookupFS fs p = some w) (h : backup_file fs p = some fs1) :
    lookupFS fs1 p = some w := by
  unfold backup_file at h
  by_cases hb : (lookupFS fs (backup_path p)).isSome
  · rw [if_pos hb] at h
    injection h with h
    rw [← h]
    exact hw
  · rw [if_neg hb, hw] at h
    injection h with h
    rw [← h, lookupFS_writeFS_ne fs (backup_path p) w p
      (fun e => backup_path_ne p e.symm)]
    exact hw

/-- Claim C4: the backup law.  Parts: (1) an existing backup is never
touched (the whole file system is unchanged); (2) with no backup present,
the current workbook bytes are copied to the backup path and nothing else
changes; (3) in `main`, on a first run the backup equals the pre-mutation
workbook bytes even after the workbook itself is rewritten; (4) in
`main`, an existing backup keeps its bytes on any re-run. -/
theorem C4_backup_law (fs : FS) (p : String) :
    (∀ c, lookupFS fs (backup_path p) = some c → backup_file fs p = some fs) ∧
    (lookupFS fs (backup_path p) = none → ∀ w, lookupFS fs p = some w →
      backup_file fs p = some (writeFS fs (backup_path p) w) ∧
      lookupFS (writeFS fs (backup_path p) w) (backup_path p) = some w ∧
      ∀ q, q ≠ backup_path p →
        lookupFS (writeFS fs (backup_path p) w) q = lookupFS fs q) ∧
    (∀ parseXml csvRows serialize csvPath caption dir fn fresh w cc root,
      lookupFS fs p = some w → lookupFS fs csvPath = some cc →
      parseXml w = some root → lookupFS fs (backup_path p) = none →
      lookupFS (runMain fs parseXml csvRows serialize p csvPath caption
        dir fn fresh).1 (backup_path p) = some w) ∧
    (∀ parseXml csvRows serialize csvPath caption dir fn fresh c,
      lookupFS fs (backup_path p) = some c →
      lookupFS (runMain fs parseXml csvRows serialize p csvPath caption
        dir fn fresh).1 (backup_path p) = some c) := by
  refine ⟨?_, ?_, ?_, ?_⟩
  · intro c hc
    unfold backup_file
    rw [if_pos (by rw [hc]; rfl)]
  · intro hb w hw
    refine ⟨?_, lookupFS_writeFS_self fs (backup_path p) w, ?_⟩
    · unfold backup_file
      rw [if_neg (by rw [hb]; simp), hw]
    · intro q hq
      exact lookupFS_writeFS_ne fs (backup_path p) w q hq
  · intro parseXml csvRows serialize csvPath caption dir fn fresh w cc root
      hw hcsv hparse hb
    have hbf : backup_file fs p = some (writeFS fs (backup_path p) w) := by
      unfold backup_file
      rw [if_neg (by rw [hb]; simp), hw]
    simp only [runMain, hw, hcsv, hparse, hbf]
    cases hadd : add_textscan_datasource root dir fn caption fresh
        (sample_csv_columns csvRows csvPath 500) with
    | error e =>
      simp only
      exact lookupFS_writeFS_self fs (backup_path p) w
    | ok rnc =>
      simp only
      rw [lookupFS_writeFS_ne _ p _ (backup_path p) (backup_path_ne p)]
      exact lookupFS_writeFS_self fs (backup_path p) w
  · intro parseXml csvRows serialize csvPath caption dir fn fresh c hc
    have hbf : backup_file fs p = some fs := by
      unfold backup_file
      rw [if_pos (by rw [hc]; rfl)]
    cases hw : lookupFS fs p with
    | none => simp only [runMain, hw]; exact hc
    | some w =>
      cases hcsv : lookupFS fs csvPath with
      | none => simp only [runMain, hw, hcsv]; exact hc
      | some cc =>
        cases hparse : parseXml w with
        | none => simp only [runMain, hw, hcsv, hparse]; exact hc
        | some root =>
          simp only [runMain, hw, hcsv, hparse, hbf]
          cases hadd : add_textscan_datasource root dir fn caption fresh
              (sample_csv_columns csvRows csvPath 500) with
          | error e => simp only; exact hc
          | ok rnc =>
            simp only
            rw [lookupFS_writeFS_ne _ p _ (backup_path p) (backup_path_ne p)]
            exact hc

/-- Claim C4, witness: concrete two-file system, first run. -/
theorem C4_witness :
    lookupFS [("wb.twb", "X"), ("d.csv", "Y")] (backup_path "wb.twb") = none ∧
    lookupFS [("wb.twb", "X"), ("d.csv", "Y")] "wb.twb" = some "X" ∧
    backup_file [("wb.twb", "X"), ("d.csv", "Y")] "wb.twb" =
      some (writeFS [("wb.twb", "X"), ("d.csv", "Y")]
        (backup_path "wb.twb") "X") ∧
    lookupFS (writeFS [("wb.twb", "X"), ("d.csv", "Y")]
      (backup_path "wb.twb") "X") (backup_path "wb.twb") = some "X" :=
  ⟨rfl, rfl,
    (((C4_backup_law [("wb.twb", "X"), ("d.csv", "Y")] "wb.twb").2.1
      rfl "X" rfl)).1,
    (((C4_backup_law [("wb.twb", "X"), ("d.csv", "Y")] "wb.twb").2.1
      rfl "X" rfl)).2.1⟩

/-- Claim C7: a missing workbook or CSV path makes `main` print the error
to stderr and exit with status 1 while the file system is untouched and
nothing was parsed or backed up (the outcome is the same for every XML
parser, CSV decoding and serializer); the only `sys.exit` code ever used
is 1, and a run that completes normally has exit status 0. -/
theorem C7_missing_input_exits (fs : FS) (parseXml : String → Option XElem)
    (csvRows : Option (List (List String))) (serialize : XElem → String)
    (wbPath csvPath : String) (caption : Option String)
    (dir fn fresh : String) :
    (lookupFS fs wbPath = none →
      runMain fs parseXml csvRows serialize wbPath csvPath caption dir fn
        fresh =
        (fs, .exited 1 ("Error: workbook not found: " ++ wbPath))) ∧
    (∀ w, lookupFS fs wbPath = some w → lookupFS fs csvPath = none →
      runMain fs parseXml csvRows serialize wbPath csvPath caption dir fn
        fresh =
        (fs, .exited 1 ("Error: csv not found: " ++ csvPath))) ∧
    (∀ fs1 code e,
      runMain fs parseXml csvRows serialize wbPath csvPath caption dir fn
        fresh = (fs1, .exited code e) → code = 1 ∧ fs1 = fs) ∧
    (∀ fs1 cap name k,
      runMain fs parseXml csvRows serialize wbPath csvPath caption dir fn
        fresh = (fs1, .finished cap name k) →
      exitStatus (.finished cap name k) = 0) := by
  refine ⟨?_, ?_, ?_, ?_⟩
  · intro hwb
    simp only [runMain, hwb]
  · intro w hwb hcsv
    simp only [runMain, hwb, hcsv]
  · intro fs1 code e
    unfold runMain
    dsimp only
    repeat' split
    all_goals intro h
    all_goals simp at h
    all_goals exact ⟨h.2.1.symm, h.1.symm⟩
  · intro fs1 cap name k _
    rfl

/-- Claim C7, witness: an empty file system with both inputs missing. -/
theorem C7_witness :
    lookupFS ([] : FS) "wb.twb" = none ∧
    runMain ([] : FS) (fun _ => none) none (fun _ => "") "wb.twb" "d.csv"
      none "C:/dir" "d.csv" "textscan.f" =
      (([] : FS), .exited 1 ("Error: workbook not found: " ++ "wb.twb")) :=
  ⟨rfl,
    (C7_missing_input_exits [] (fun _ => none) none (fun _ => "") "wb.twb"
      "d.csv" none "C:/dir" "d.csv" "textscan.f").1 rfl⟩

/-! ### Lemmas about the datasource container and the update loop -/

theorem find?_listInsertAt (p : XElem → Bool) (x : XElem) (hx : p x = true)
    (n : Nat) (l : List XElem) (hall : ∀ y ∈ l, p y = false) :
    (listInsertAt n x l).find? p = some x := by
  induction l generalizing n with
  | nil =>
    cases n with
    | zero => simp [listInsertAt, List.find?_cons, hx]
    | succ m => simp [listInsertAt, List.find?_cons, hx]
  | cons y ys ih =>
    cases n with
    | zero => simp [listInsertAt, List.find?_cons, hx]
    | succ m =>
      have hy : p y = false := hall y (List.mem_cons_self y ys)
      simp only [listInsertAt, List.find?_cons, hy, cond_false]
      exact ih m (fun z hz => hall z (List.mem_cons_of_mem y hz))

theorem ensure_of_found (root c : XElem)
    (h : root.findTag "datasources" = some c) :
    ensure_datasources_node root = root := by
  have h' : root.children.find?
      (fun x => decide (x.tag = "datasources")) = some c := h
  unfold ensure_datasources_node
  rw [if_pos ?_]
  rw [List.any_eq_true]
  refine ⟨c, List.mem_of_find?_eq_some h', ?_⟩
  have hp := List.find?_some h'
  exact hp

theorem ensure_of_missing (root : XElem)
    (h : root.findTag "datasources" = none) :
    (ensure_datasources_node root).findTag "datasources" =
      some (XElem.mk "datasources" [] []) := by
  have h' : root.children.find?
      (fun x => decide (x.tag = "datasources")) = none := h
  have hall : ∀ y ∈ root.children, (decide (y.tag = "datasources")) = false := by
    intro y hy
    exact Bool.eq_false_iff.mpr (List.find?_eq_none.mp h' y hy)
  have hany : root.children.any (fun c => c.tag = "datasources") = false := by
    rw [List.any_eq_false]
    intro y hy
    simp [hall y hy]
  unfold ensure_datasources_node
  rw [if_neg (by rw [hany]; simp)]
  cases hidx : root.children.findIdx? (fun c => c.tag = "preferences") with
  | some idx =>
    simp only [XElem.findTag, XElem.children_withChildren]
    exact find?_listInsertAt _ _ (by decide) (idx + 1) root.children hall
  | none =>
    simp only [XElem.findTag, XElem.children_withChildren, List.find?_cons]
    simp

theorem updateFirstMatch_none (dir fn cap nm : String) (l : List XElem)
    (h : ∀ c ∈ l, isMatchingDS fn c = false) :
    updateFirstMatch dir fn cap nm l = (l, none) := by
  induction l with
  | nil => rfl
  | cons c cs ih =>
    have hc := h c (List.mem_cons_self c cs)
    simp [updateFirstMatch, hc,
      ih (fun z hz => h z (List.mem_cons_of_mem c hz))]

/-- Does the workbook already hold a textscan datasource for `filename`?
(The condition deciding which branch `add_textscan_datasource` takes.) -/
def hasMatchingDS (filename : String) (root : XElem) : Bool :=
  match root.findTag "datasources" with
  | some container => container.children.any (isMatchingDS filename)
  | none => false

/-- When no existing datasource matches, a CSV sampling failure surfaces
as the `RuntimeError` of `sample_csv_columns` (line 206 runs only in the
fresh-insert branch). -/
theorem add_textscan_error_of_no_match (root : XElem) (dir fn : String)
    (caption : Option String) (fresh e : String)
    (h : hasMatchingDS fn root = false) :
    add_textscan_datasource root dir fn caption fresh (.error e) =
      .error e := by
  unfold add_textscan_datasource
  dsimp only
  cases hf : root.findTag "datasources" with
  | some c =>
    rw [ensure_of_found root c hf, hf]
    have hall : ∀ y ∈ c.children, isMatchingDS fn y = false := by
      unfold hasMatchingDS at h
      rw [hf] at h
      intro y hy
      exact Bool.eq_false_iff.mpr ((List.any_eq_false.mp h) y hy)
    dsimp only [addToContainer]
    rw [updateFirstMatch_none dir fn (dsCaptionOf caption fn) fresh
      c.children hall]
  | none =>
    rw [ensure_of_missing root hf]
    rfl

/-!
## Claim C6 — CSV-unreadable abort

The claim says an unreadable CSV always aborts the run before the
workbook is serialized.  That is false: `sample_csv_columns` is only
called inside the fresh-insert branch of `add_textscan_datasource`
(line 206 comes after the update loop has already returned), so when the
workbook already holds a matching textscan datasource the CSV is never
read and the run serializes the workbook normally. -/

/-- Workbook that already contains a textscan datasource for `d.csv`. -/
def demoWorkbookMatched : XElem :=
  XElem.mk "workbook" []
    [XElem.mk "datasources" []
      [XElem.mk "datasource"
        [("caption", "old"), ("inline", "true"), ("name", "textscan.old"),
         ("version", "18.1")]
        [XElem.mk "connection"
          [("class", "textscan"), ("directory", "olddir"),
           ("filename", "d.csv"), ("password", ""), ("server", "")]
          [XElem.mk "relation"
            [("name", "d.csv"), ("table", "[d#csv]"), ("type", "table")]
            []]]]]

/-- File system holding the workbook and the (undecodable) CSV. -/
def demoFS : FS := [("wb.twb", "ORIG"), ("d.csv", "RAW")]

/-- Claim C6, counterexample: with an unreadable CSV (`none`: no encoding
yields a header row) but a workbook that already holds a matching
textscan datasource, `main` finishes normally and rewrites the workbook
instead of aborting before serialization. -/
theorem C6_counterexample :
    (runMain demoFS (fun _ => some demoWorkbookMatched) none
        (fun _ => "MUTATED") "wb.twb" "d.csv" none "C:/dir" "d.csv"
        "textscan.fresh").2 =
      RunResult.finished "d.csv" "textscan.old" 0 ∧
    lookupFS (runMain demoFS (fun _ => some demoWorkbookMatched) none
        (fun _ => "MUTATED") "wb.twb" "d.csv" none "C:/dir" "d.csv"
        "textscan.fresh").1 "wb.twb" = some "MUTATED" ∧
    lookupFS demoFS "wb.twb" = some "ORIG" ∧
    (some "MUTATED" : Option String) ≠ some "ORIG" := by
  refine ⟨by decide, by decide, by decide, by decide⟩

/-- Claim C6 as amended: when no encoding yields a header row AND the
workbook holds no textscan datasource matching the filename (the only
case in which the CSV is sampled), the run aborts with the
`Unable to read CSV headers` error before serialization, leaving the
workbook's bytes unchanged. -/
theorem C6_unreadable_csv_aborts (fs : FS) (parseXml : String → Option XElem)
    (serialize : XElem → String) (wbPath csvPath : String)
    (caption : Option String) (dir fn fresh w cc : String) (root : XElem)
    (hwb : lookupFS fs wbPath = some w)
    (hcsv : lookupFS fs csvPath = some cc)
    (hparse : parseXml w = some root)
    (hnom : hasMatchingDS fn root = false) :
    (runMain fs parseXml none serialize wbPath csvPath caption dir fn
        fresh).2 =
      .raised ("Unable to read CSV headers from " ++ csvPath) ∧
    lookupFS (runMain fs parseXml none serialize wbPath csvPath caption dir
      fn fresh).1 wbPath = some w := by
  obtain ⟨fs1, hbf⟩ : ∃ fs1, backup_file fs wbPath = some fs1 := by
    unfold backup_file
    by_cases hb : (lookupFS fs (backup_path wbPath)).isSome
    · rw [if_pos hb]; exact ⟨fs, rfl⟩
    · rw [if_neg hb, hwb]; exact ⟨_, rfl⟩
  have hs : sample_csv_columns none csvPath 500 =
      Except.error ("Unable to read CSV headers from " ++ csvPath) := rfl
  simp only [runMain, hwb, hcsv, hparse, hbf, hs,
    add_textscan_error_of_no_match root dir fn caption fresh _ hnom]
  exact ⟨by trivial, lookupFS_backup_file fs fs1 wbPath w hwb hbf⟩

/-- Claim C6 (amended), witness: empty workbook, undecodable CSV. -/
theorem C6_witness :
    (runMain [("wb.twb", "X"), ("d.csv", "Y")]
        (fun _ => some (XElem.mk "workbook" [] [])) none (fun _ => "Z")
        "wb.twb" "d.csv" none "C:/dir" "d.csv" "textscan.f").2 =
      .raised ("Unable to read CSV headers from " ++ "d.csv") ∧
    lookupFS (runMain [("wb.twb", "X"), ("d.csv", "Y")]
        (fun _ => some (XElem.mk "workbook" [] [])) none (fun _ => "Z")
        "wb.twb" "d.csv" none "C:/dir" "d.csv" "textscan.f").1 "wb.twb" =
      some "X" :=
  C6_unreadable_csv_aborts [("wb.twb", "X"), ("d.csv", "Y")]
    (fun _ => some (XElem.mk "workbook" [] [])) (fun _ => "Z") "wb.twb"
    "d.csv" none "C:/dir" "d.csv" "textscan.f" "X" "Y"
    (XElem.mk "workbook" [] []) rfl rfl rfl rfl

/-!
## Claim C8 — worksheet linking: uniqueness, skipping, count -/

theorem find?_append_right (p : XElem → Bool) (l r : List XElem)
    (h : ∀ y ∈ l, p y = false) : (l ++ r).find? p = r.find? p := by
  induction l with
  | nil => simp
  | cons c cs ih =>
    have hc := h c (List.mem_cons_self c cs)
    simp only [List.cons_append, List.find?_cons, hc, cond_false]
    exact ih (fun z hz => h z (List.mem_cons_of_mem c hz))

theorem updateFirstChild_append_right (p : XElem → Bool) (f : XElem → XElem)
    (l r : List XElem) (h : ∀ y ∈ l, p y = false) :
    updateFirstChild p f (l ++ r) = l ++ updateFirstChild p f r := by
  induction l with
  | nil => simp
  | cons c cs ih =>
    have hc := h c (List.mem_cons_self c cs)
    simp only [List.cons_append, updateFirstChild, hc, Bool.false_eq_true,
      if_false, List.cons.injEq, true_and]
    exact ih (fun z hz => h z (List.mem_cons_of_mem c hz))

theorem updateFirstChild_self (p : XElem → Bool) (l : List XElem) (x : XElem)
    (h : l.find? p = some x) : updateFirstChild p (fun _ => x) l = l := by
  induction l with
  | nil => simp at h
  | cons c cs ih =>
    by_cases hc : p c
    · rw [List.find?_cons, hc] at h
      simp only [cond_true, Option.some.injEq] at h
      subst h
      simp [updateFirstChild, hc]
    · rw [List.find?_cons] at h
      simp only [hc, cond_false] at h
      simp [updateFirstChild, hc, ih h]

theorem find?_updateFirstChild (p : XElem → Bool) (f : XElem → XElem)
    (l : List XElem) (x : XElem) (h : l.find? p = some x)
    (hf : p (f x) = true) :
    (updateFirstChild p f l).find? p = some (f x) := by
  induction l with
  | nil => simp at h
  | cons c cs ih =>
    by_cases hc : p c
    · rw [List.find?_cons, hc] at h
      simp only [cond_true, Option.some.injEq] at h
      subst h
      simp [updateFirstChild, hc, List.find?_cons, hf]
    · rw [List.find?_cons] at h
      simp only [hc, cond_false] at h
      simp [updateFirstChild, hc, List.find?_cons, ih h]

theorem withChildren_self (e : XElem) : e.withChildren e.children = e := by
  cases e
  rfl

/-- Number of references to `nm` in the view's first `datasources`
child - the view's link multiset restricted to that name. -/
def countLinks (nm : String) (v : XElem) : Nat :=
  match v.findTag "datasources" with
  | some d =>
    ((d.findAllTag "datasource").filter
      (fun c => c.getAttr "name" == some nm)).length
  | none => 0

/-- A view the loop would have to link: its worksheet has a `table/view`
node whose link set does not yet hold the name. -/
def wsNewlyLinkable (dsName : String) (ws : XElem) : Bool :=
  match firstViewOf ws with
  | none => false
  | some v => !viewLinked dsName v

/-- The `findall("worksheets/worksheet")` node list of the workbook. -/
def worksheetNodes (root : XElem) : List XElem :=
  root.findAllPath2 "worksheets" "worksheet"

theorem viewLinked_false_countLinks (nm : String) (v : XElem)
    (h : viewLinked nm v = false) : countLinks nm v = 0 := by
  unfold viewLinked at h
  unfold countLinks
  cases hd : v.findTag "datasources" with
  | none => rfl
  | some d =>
    rw [hd] at h
    simp only [List.length_eq_zero]
    rw [List.filter_eq_nil_iff]
    intro a ha
    have := List.any_eq_false.mp h a ha
    simpa using this

theorem attachToView_bool (nm cap : String) (v : XElem) :
    (attachToView nm cap v).2 = !viewLinked nm v := by
  unfold attachToView viewLinked
  cases hany : v.children.any (fun c => c.tag = "datasources") with
  | true =>
    cases hd : v.findTag "datasources" with
    | none =>
      have hn : (v.children.find? (fun c => decide (c.tag = "datasources"))) =
          none := hd
      rw [List.find?_eq_none] at hn
      rw [List.any_eq_true] at hany
      obtain ⟨x, hx, hpx⟩ := hany
      exact absurd hpx (by simpa using hn x hx)
    | some d =>
      cases hl : (d.findAllTag "datasource").any
          (fun c => decide (c.getAttr "name" = some nm)) <;> simp [hd, hl]
  | false =>
    have hall : ∀ y ∈ v.children, (decide (y.tag = "datasources")) = false := by
      intro y hy
      have := List.any_eq_false.mp hany y hy
      simpa using this
    have hft : v.findTag "datasources" = none := by
      unfold XElem.findTag
      rw [List.find?_eq_none]
      intro y hy
      simp [hall y hy]
    have hft2 : (v.withChildren
        (v.children ++ [XElem.mk "datasources" [] []])).findTag
          "datasources" = some (XElem.mk "datasources" [] []) := by
      unfold XElem.findTag
      rw [XElem.children_withChildren,
        find?_append_right _ _ _ hall, List.find?_cons]
      simp
    simp only [hany, Bool.false_eq_true, if_false, hft, hft2]
    simp [XElem.findAllTag]

theorem attachToView_already (nm cap : String) (v : XElem)
    (h : viewLinked nm v = true) : attachToView nm cap v = (v, false) := by
  unfold viewLinked at h
  cases hd : v.findTag "datasources" with
  | none => rw [hd] at h; simp at h
  | some d =>
    rw [hd] at h
    have hany : v.children.any (fun c => c.tag = "datasources") = true := by
      rw [List.any_eq_true]
      have hd' : v.children.find?
          (fun c => decide (c.tag = "datasources")) = some d := hd
      refine ⟨d, List.mem_of_find?_eq_some hd', ?_⟩
      have hp := List.find?_some hd'
      exact hp
    unfold attachToView
    rw [if_pos hany]
    dsimp only
    rw [hd]
    dsimp only at h ⊢
    rw [if_pos h]

theorem exists_find?_of_any (p : XElem → Bool) (l : List XElem)
    (h : l.any p = true) : ∃ x, l.find? p = some x := by
  have hs : (l.find? p).isSome :=
    List.find?_isSome.mpr (by simpa [List.any_eq_true] using h)
  cases hf : l.find? p with
  | none => rw [hf] at hs; simp at hs
  | some x => exact ⟨x, rfl⟩

theorem withChildren_withChildren (e : XElem) (a b : List XElem) :
    (e.withChildren a).withChildren b = e.withChildren b := by
  cases e
  rfl

theorem attachToView_countLinks (nm cap : String) (v : XElem) :
    countLinks nm (attachToView nm cap v).1 =
      (if viewLinked nm v = true then countLinks nm v
       else countLinks nm v + 1) := by
  cases hlink : viewLinked nm v with
  | true => simp [attachToView_already nm cap v hlink]
  | false =>
    rw [if_neg (by simp)]
    cases hany : v.children.any (fun c => c.tag = "datasources") with
    | false =>
      have hall : ∀ y ∈ v.children,
          (decide (y.tag = "datasources")) = false := by
        intro y hy
        simpa using List.any_eq_false.mp hany y hy
      have hft : v.findTag "datasources" = none := by
        unfold XElem.findTag
        rw [List.find?_eq_none]
        intro y hy
        simp [hall y hy]
      have hv0 : countLinks nm v = 0 := by
        unfold countLinks
        rw [hft]
      have hft2 : (v.withChildren
          (v.children ++ [XElem.mk "datasources" [] []])).findTag
            "datasources" = some (XElem.mk "datasources" [] []) := by
        unfold XElem.findTag
        rw [XElem.children_withChildren,
          find?_append_right _ _ _ hall, List.find?_cons]
        simp
      have h1 : attachToView nm cap v =
          (v.withChildren (v.children ++ [XElem.mk "datasources" []
            [XElem.mk "datasource" [("caption", cap), ("name", nm)] []]]),
            true) := by
        unfold attachToView
        simp only [hany, Bool.false_eq_true, if_false]
        rw [hft2]
        simp only [XElem.findAllTag, XElem.children_mk, List.filter_nil,
          List.any_nil, Bool.false_eq_true, if_false]
        rw [XElem.children_withChildren,
          updateFirstChild_append_right _ _ _ _ hall,
          withChildren_withChildren]
        rfl
      rw [h1, hv0]
      unfold countLinks XElem.findTag
      rw [XElem.children_withChildren, find?_append_right _ _ _ hall,
        List.find?_cons]
      simp [XElem.findAllTag, XElem.getAttr, lookupPair]
    | true =>
      obtain ⟨d0, hd0⟩ := exists_find?_of_any _ _ hany
      have htag : d0.tag = "datasources" := by
        have hp := List.find?_some hd0
        simpa using hp
      have hft : v.findTag "datasources" = some d0 := hd0
      have hnolink : (d0.findAllTag "datasource").any
          (fun c => decide (c.getAttr "name" = some nm)) = false := by
        unfold viewLinked at hlink
        rw [hft] at hlink
        exact hlink
      have hfind : ((updateFirstChild (fun c => decide (c.tag = "datasources"))
          (fun d => d.withChildren (d.children ++
            [XElem.mk "datasource" [("caption", cap), ("name", nm)] []]))
          v.children).find? (fun c => decide (c.tag = "datasources"))) =
          some (d0.withChildren (d0.children ++
            [XElem.mk "datasource" [("caption", cap), ("name", nm)] []])) := by
        have hstep := find?_updateFirstChild
          (fun c => decide (c.tag = "datasources"))
          (fun d => d.withChildren (d.children ++
            [XElem.mk "datasource" [("caption", cap), ("name", nm)] []]))
          v.children d0 hd0 (by simp [htag])
        simpa using hstep
      have h1 : attachToView nm cap v =
          (v.withChildren (updateFirstChild
            (fun c => decide (c.tag = "datasources"))
            (fun d => d.withChildren (d.children ++
              [XElem.mk "datasource" [("caption", cap), ("name", nm)] []]))
            v.children), true) := by
        unfold attachToView
        rw [if_pos hany]
        dsimp only
        rw [hft]
        dsimp only
        rw [hnolink]
        simp
      rw [h1]
      unfold countLinks XElem.findTag
      rw [XElem.children_withChildren, hfind]
      have hd0' : v.children.find?
          (fun c => decide (c.tag = "datasources")) = some d0 := hd0
      rw [hd0']
      dsimp only
      unfold XElem.findAllTag
      rw [XElem.children_withChildren, List.filter_append,
        List.filter_append]
      simp [XElem.getAttr, lookupPair]

/-- Worksheets without a `table/view` node are skipped: unchanged tree,
not counted. -/
theorem attachToWorksheet_skip (nm cap : String) (ws : XElem)
    (h : firstViewOf ws = none) : attachToWorksheet nm cap ws = (ws, false) := by
  unfold firstViewOf at h
  unfold attachToWorksheet
  cases h1 : ws.children.find? tableWithView with
  | none => rfl
  | some t =>
    rw [h1] at h
    dsimp only at h
    dsimp only
    rw [h]

/-- Worksheets whose view already references the name are left exactly
as they are and not counted. -/
theorem attachToWorksheet_already (nm cap : String) (ws v : XElem)
    (hv : firstViewOf ws = some v) (hl : viewLinked nm v = true) :
    attachToWorksheet nm cap ws = (ws, false) := by
  unfold firstViewOf at hv
  unfold attachToWorksheet
  cases h1 : ws.children.find? tableWithView with
  | none => rw [h1] at hv
  | some t =>
    rw [h1] at hv
    dsimp only at hv
    dsimp only
    rw [hv]
    dsimp only
    rw [attachToView_already nm cap v hl]
    dsimp only
    rw [updateFirstChild_self _ _ _ hv]
    rw [withChildren_self]
    rw [updateFirstChild_self _ _ _ h1]
    rw [withChildren_self]

theorem attachToWorksheet_bool (nm cap : String) (ws : XElem) :
    (attachToWorksheet nm cap ws).2 = wsNewlyLinkable nm ws := by
  unfold attachToWorksheet wsNewlyLinkable firstViewOf
  cases h1 : ws.children.find? tableWithView with
  | none => rfl
  | some t =>
    dsimp only
    cases h2 : t.children.find? (fun v => v.tag = "view") with
    | none => rfl
    | some v =>
      dsimp only
      rw [attachToView_bool]

theorem mapCount_snd (f : XElem → XElem × Bool) (p : XElem → Bool)
    (l : List XElem) :
    (mapCount f p l).2 = List.countP (fun x => p x && (f x).2) l := by
  induction l with
  | nil => rfl
  | cons c cs ih =>
    simp only [mapCount, List.countP_cons, ih]
    by_cases hc : p c
    · cases hfc : (f c).2 <;> simp [hc, hfc, Nat.add_comm]
    · simp [hc]

theorem mapCountN_snd (f : XElem → XElem × Nat) (p : XElem → Bool)
    (l : List XElem) :
    (mapCountN f p l).2 = ((l.filter p).map (fun x => (f x).2)).sum := by
  induction l with
  | nil => rfl
  | cons c cs ih =>
    simp only [mapCountN, List.filter_cons]
    by_cases hc : p c
    · simp [hc, ih]
    · simp [hc, ih]

theorem countP_flatMap (q : XElem → Bool) (g : XElem → List XElem)
    (l : List XElem) :
    List.countP q (l.flatMap g) =
      (l.map (fun x => List.countP q (g x))).sum := by
  induction l with
  | nil => rfl
  | cons c cs ih => simp [List.flatMap_cons, List.countP_append, ih]

theorem attachWorksheetsNode_snd (nm cap : String) (w : XElem) :
    (attachWorksheetsNode nm cap w).2 =
      List.countP (wsNewlyLinkable nm) (w.findAllTag "worksheet") := by
  unfold attachWorksheetsNode XElem.findAllTag
  dsimp only
  rw [mapCount_snd, List.countP_filter]
  apply List.countP_congr
  intro x _
  simp [attachToWorksheet_bool, Bool.and_comm]

/-- Returned count of the worksheet linker: exactly the number of
worksheets (in document order) that have a view not yet linked. -/
theorem attach_count (root : XElem) (nm cap : String) :
    (attach_datasource_to_all_worksheets root nm cap).2 =
      List.countP (wsNewlyLinkable nm) (worksheetNodes root) := by
  unfold attach_datasource_to_all_worksheets worksheetNodes XElem.findAllPath2
  dsimp only
  rw [mapCountN_snd, countP_flatMap]
  exact congrArg List.sum (List.map_congr_left
    (fun w _ => attachWorksheetsNode_snd nm cap w))

/-- Claim C8: the worksheet linker (1) skips worksheets lacking a
`table/view` node without change or error, (2) never appends a reference
whose name is already in a view's link set (the worksheet is returned
unchanged and uncounted), (3) per view, the link count for the name stays
put when already linked and becomes exactly one when absent (the count
was zero), so a name occurs at most once per worksheet, and (4) the
returned total is exactly the number of worksheets with a view not yet
linked. -/
theorem C8_worksheet_link_invariants (root : XElem) (nm cap : String) :
    (∀ ws, firstViewOf ws = none →
      attachToWorksheet nm cap ws = (ws, false)) ∧
    (∀ ws v, firstViewOf ws = some v → viewLinked nm v = true →
      attachToWorksheet nm cap ws = (ws, false)) ∧
    (∀ v, countLinks nm (attachToView nm cap v).1 =
        (if viewLinked nm v = true then countLinks nm v
         else countLinks nm v + 1) ∧
      (viewLinked nm v = false → countLinks nm v = 0)) ∧
    (attach_datasource_to_all_worksheets root nm cap).2 =
      List.countP (wsNewlyLinkable nm) (worksheetNodes root) :=
  ⟨fun ws h => attachToWorksheet_skip nm cap ws h,
   fun ws v hv hl => attachToWorksheet_already nm cap ws v hv hl,
   fun v => ⟨attachToView_countLinks nm cap v,
     fun h => viewLinked_false_countLinks nm v h⟩,
   attach_count root nm cap⟩

/-- Worksheet without a `table/view` node. -/
def wsNoView : XElem := XElem.mk "worksheet" [] [XElem.mk "layout" [] []]

/-- View already holding a reference named `n`. -/
def linkedView : XElem :=
  XElem.mk "view" []
    [XElem.mk "datasources" []
      [XElem.mk "datasource" [("caption", "c"), ("name", "n")] []]]

/-- Worksheet whose view is already linked. -/
def wsLinked : XElem :=
  XElem.mk "worksheet" [] [XElem.mk "table" [] [linkedView]]

/-- Worksheet with a fresh, unlinked view. -/
def wsFresh : XElem :=
  XElem.mk "worksheet" [] [XElem.mk "table" [] [XElem.mk "view" [] []]]

/-- Workbook with one skipped, one already-linked and one linkable
worksheet. -/
def demoRootWs : XElem :=
  XElem.mk "workbook" []
    [XElem.mk "datasources" [] [],
     XElem.mk "worksheets" [] [wsNoView, wsLinked, wsFresh]]

/-- Claim C8, witness: the three worksheet shapes at concrete input; the
run links exactly the one fresh view. -/
theorem C8_witness :
    firstViewOf wsNoView = none ∧
    attachToWorksheet "n" "c" wsNoView = (wsNoView, false) ∧
    firstViewOf wsLinked = some linkedView ∧
    viewLinked "n" linkedView = true ∧
    attachToWorksheet "n" "c" wsLinked = (wsLinked, false) ∧
    (viewLinked "n" (XElem.mk "view" [] []) = false →
      countLinks "n" (XElem.mk "view" [] []) = 0) ∧
    (attach_datasource_to_all_worksheets demoRootWs "n" "c").2 =
      List.countP (wsNewlyLinkable "n") (worksheetNodes demoRootWs) ∧
    (attach_datasource_to_all_worksheets demoRootWs "n" "c").2 = 1 :=
  ⟨rfl,
   (C8_worksheet_link_invariants demoRootWs "n" "c").1 wsNoView rfl,
   rfl, rfl,
   (C8_worksheet_link_invariants demoRootWs "n" "c").2.1 wsLinked linkedView
     rfl rfl,
   ((C8_worksheet_link_invariants demoRootWs "n" "c").2.2.1
     (XElem.mk "view" [] [])).2,
   (C8_worksheet_link_invariants demoRootWs "n" "c").2.2.2,
   rfl⟩

/-!
## Claims C1 and C10 — in-place update invariants of the datasource loop -/

theorem XElem.getAttr_withChildren (e : XElem) (l : List XElem) (k : String) :
    (e.withChildren l).getAttr k = e.getAttr k := by
  cases e
  rfl

theorem updateConn_tag (dir fn : String) (conn : XElem) :
    (updateConn dir fn conn).tag = conn.tag := by
  unfold updateConn
  simp

theorem updateConn_class (dir fn : String) (conn : XElem) :
    (updateConn dir fn conn).getAttr "class" = conn.getAttr "class" := by
  unfold updateConn
  dsimp only
  rw [XElem.getAttr_withChildren,
    XElem.getAttr_setAttr_ne _ _ _ _ (by decide),
    XElem.getAttr_setAttr_ne _ _ _ _ (by decide)]

theorem updateConn_filename (dir fn : String) (conn : XElem) :
    (updateConn dir fn conn).getAttr "filename" = some fn := by
  unfold updateConn
  dsimp only
  rw [XElem.getAttr_withChildren, XElem.getAttr_setAttr_self]

theorem updateMatched_tag (dir fn cap nm : String) (c : XElem) :
    (updateMatchedDatasource dir fn cap nm c).1.tag = c.tag := by
  unfold updateMatchedDatasource
  dsimp only
  repeat' split
  all_goals simp

theorem updateMatched_children (dir fn cap nm : String) (c : XElem) :
    (updateMatchedDatasource dir fn cap nm c).1.children =
      updateFirstChild (fun x => x.tag = "connection") (updateConn dir fn)
        c.children := by
  unfold updateMatchedDatasource
  dsimp only
  repeat' split
  all_goals simp

theorem updateMatched_snd_name (dir fn cap nm : String) (c : XElem)
    (n0 : String) (hname : c.getAttr "name" = some n0) (hn0 : n0 ≠ "") :
    (updateMatchedDatasource dir fn cap nm c).2.1 = n0 := by
  unfold updateMatchedDatasource
  dsimp only
  by_cases hcap : cap ≠ ""
  · rw [if_pos hcap, XElem.getAttr_setAttr_ne _ _ _ _ (by decide),
      XElem.getAttr_withChildren, hname]
    simp [hn0]
  · rw [if_neg hcap, XElem.getAttr_withChildren, hname]
    simp [hn0]

theorem updateMatched_matches (dir fn cap nm : String) (c : XElem)
    (h : isMatchingDS fn c = true) :
    isMatchingDS fn (updateMatchedDatasource dir fn cap nm c).1 = true := by
  unfold isMatchingDS at h ⊢
  rw [Bool.and_eq_true] at h ⊢
  obtain ⟨htag, hmt⟩ := h
  refine ⟨by rw [updateMatched_tag]; exact htag, ?_⟩
  unfold matchesTextscan at hmt ⊢
  cases hconn : c.findTag "connection" with
  | none => rw [hconn] at hmt; cases hmt
  | some conn =>
    rw [hconn] at hmt
    have hconntag : conn.tag = "connection" := by
      have hp := List.find?_some (hconn :
        c.children.find? (fun x => decide (x.tag = "connection")) = some conn)
      simpa using hp
    have hfc : (updateMatchedDatasource dir fn cap nm c).1.findTag
        "connection" = some (updateConn dir fn conn) := by
      unfold XElem.findTag
      rw [updateMatched_children]
      exact find?_updateFirstChild _ _ _ _ hconn
        (by simp [updateConn_tag, hconntag])
    rw [hfc]
    dsimp only at hmt ⊢
    rw [updateConn_class, updateConn_filename]
    rw [Bool.and_eq_true] at hmt ⊢
    obtain ⟨hclass, hfn⟩ := hmt
    refine ⟨hclass, ?_⟩
    cases hf : conn.getAttr "filename" with
    | none => rw [hf] at hfn; cases hfn
    | some f =>
      rw [hf] at hfn
      rw [Bool.and_eq_true, decide_eq_true_eq, decide_eq_true_eq] at hfn
      have hfnne : fn ≠ "" := hfn.2 ▸ hfn.1
      simp [hfnne]

theorem updateFirstMatch_getD (dir fn cap nm : String) (l : List XElem)
    (i : Nat) (d0 : XElem) (h : isMatchingDS fn (l.getD i d0) = false) :
    (updateFirstMatch dir fn cap nm l).1.getD i d0 = l.getD i d0 := by
  induction l generalizing i with
  | nil => rfl
  | cons c cs ih =>
    by_cases hm : isMatchingDS fn c
    · cases i with
      | zero => exact absurd hm (by simpa using h)
      | succ j => simp [updateFirstMatch, hm]
    · cases i with
      | zero => simp [updateFirstMatch, hm]
      | succ j =>
        simp only [updateFirstMatch, hm, Bool.false_eq_true, if_false,
          List.getD_cons_succ]
        exact ih j (by simpa using h)

theorem updateFirstMatch_snd (dir fn cap nm : String) (l : List XElem)
    (x : XElem) (hf : l.find? (isMatchingDS fn) = some x) :
    (updateFirstMatch dir fn cap nm l).2 =
      some (updateMatchedDatasource dir fn cap nm x).2 := by
  induction l with
  | nil => cases hf
  | cons c cs ih =>
    by_cases hm : isMatchingDS fn c
    · rw [List.find?_cons, hm] at hf
      simp only [cond_true, Option.some.injEq] at hf
      subst hf
      simp [updateFirstMatch, hm]
    · rw [List.find?_cons] at hf
      simp only [hm, Bool.false_eq_true, cond_false] at hf
      simp [updateFirstMatch, hm, ih hf]

theorem updateFirstMatch_countP (dir fn cap nm : String) (l : List XElem) :
    List.countP (isMatchingDS fn) (updateFirstMatch dir fn cap nm l).1 =
      List.countP (isMatchingDS fn) l := by
  induction l with
  | nil => rfl
  | cons c cs ih =>
    by_cases hm : isMatchingDS fn c
    · simp [updateFirstMatch, hm, List.countP_cons,
        updateMatched_matches dir fn cap nm c hm]
    · simp [updateFirstMatch, hm, List.countP_cons, ih]

/-- Elimination for the update branch of `add_textscan_datasource`: with
a matching datasource present, the result replaces the container's first
match in place and returns the pair of `updateMatchedDatasource`. -/
theorem add_ok_update_branch (root container : XElem) (dir fn : String)
    (caption : Option String) (fresh : String)
    (sample : Except String (List String × List String))
    (root' : XElem) (n cap : String) (ds0 : XElem)
    (hc : root.findTag "datasources" = some container)
    (hfind : container.children.find? (isMatchingDS fn) = some ds0)
    (hadd : add_textscan_datasource root dir fn caption fresh sample =
      .ok (root', n, cap)) :
    root' = root.withChildren
      (updateFirstChild (fun c => c.tag = "datasources")
        (fun _ => container.withChildren
          (updateFirstMatch dir fn (dsCaptionOf caption fn) fresh
            container.children).1)
        root.children) ∧
    n = (updateMatchedDatasource dir fn (dsCaptionOf caption fn) fresh
      ds0).2.1 ∧
    cap = (updateMatchedDatasource dir fn (dsCaptionOf caption fn) fresh
      ds0).2.2 := by
  unfold add_textscan_datasource at hadd
  dsimp only at hadd
  rw [ensure_of_found root container hc, hc] at hadd
  dsimp only at hadd
  unfold addToContainer at hadd
  dsimp only at hadd
  rw [updateFirstMatch_snd dir fn (dsCaptionOf caption fn) fresh
    container.children ds0 hfind] at hadd
  dsimp only at hadd
  simp only [Except.ok.injEq, Prod.mk.injEq] at hadd
  exact ⟨hadd.1.symm, hadd.2.1.symm, hadd.2.2.symm⟩

/-- Elimination for the fresh-insert branch: with no matching datasource,
the new subtree is appended and the fresh name/caption are returned. -/
theorem add_ok_create_branch (root container : XElem) (dir fn : String)
    (caption : Option String) (fresh : String)
    (root' : XElem) (n cap : String) (hs ts : List String)
    (hc : root.findTag "datasources" = some container)
    (hnone : container.children.find? (isMatchingDS fn) = none)
    (hadd : add_textscan_datasource root dir fn caption fresh
      (.ok (hs, ts)) = .ok (root', n, cap)) :
    root' = root.withChildren
      (updateFirstChild (fun c => c.tag = "datasources")
        (fun _ => container.withChildren (container.children ++
          [newDatasourceElem dir fn (dsCaptionOf caption fn) fresh hs ts]))
        root.children) ∧
    n = fresh ∧ cap = dsCaptionOf caption fn := by
  have hall : ∀ c ∈ container.children, isMatchingDS fn c = false := by
    intro y hy
    exact Bool.eq_false_iff.mpr (List.find?_eq_none.mp hnone y hy)
  unfold add_textscan_datasource at hadd
  dsimp only at hadd
  rw [ensure_of_found root container hc, hc] at hadd
  dsimp only at hadd
  unfold addToContainer at hadd
  dsimp only at hadd
  rw [updateFirstMatch_none dir fn (dsCaptionOf caption fn) fresh
    container.children hall] at hadd
  dsimp only at hadd
  simp only [Except.ok.injEq, Prod.mk.injEq] at hadd
  exact ⟨hadd.1.symm, hadd.2.1.symm, hadd.2.2.symm⟩

/-- The container of the result of `add_textscan_datasource`, when the
original container was replaced by `container'` of the same tag. -/
theorem findTag_after_update (root container container' : XElem)
    (hc : root.findTag "datasources" = some container)
    (htag : container'.tag = "datasources") :
    (root.withChildren
      (updateFirstChild (fun c => c.tag = "datasources")
        (fun _ => container') root.children)).findTag "datasources" =
      some container' := by
  unfold XElem.findTag
  rw [XElem.children_withChildren]
  have hstep := find?_updateFirstChild
    (fun c => decide (c.tag = "datasources")) (fun _ => container')
    root.children container hc (by simp [htag])
  exact hstep

/-- Claim C10: `add_textscan_datasource` never modifies an existing
datasource child that fails the match test — no connection child, class
not `textscan`, or filename missing/empty: such children keep their
position and value; and when no child matches at all, a fresh datasource
element is appended at the end instead. -/
theorem C10_nonmatching_untouched (root container : XElem) (dir fn : String)
    (caption : Option String) (fresh : String)
    (sample : Except String (List String × List String))
    (root' : XElem) (n cap : String) (d0 : XElem)
    (hc : root.findTag "datasources" = some container)
    (hadd : add_textscan_datasource root dir fn caption fresh sample =
      .ok (root', n, cap)) :
    ∃ container', root'.findTag "datasources" = some container' ∧
      (∀ i, i < container.children.length →
        isMatchingDS fn (container.children.getD i d0) = false →
        container'.children.getD i d0 = container.children.getD i d0) ∧
      ((∀ c ∈ container.children, isMatchingDS fn c = false) →
        ∀ hs ts, sample = .ok (hs, ts) →
        container'.children = container.children ++
          [newDatasourceElem dir fn (dsCaptionOf caption fn) fresh hs ts]) := by
  have htagc : container.tag = "datasources" := by
    have hp := List.find?_some (hc :
      root.children.find? (fun x => decide (x.tag = "datasources")) =
        some container)
    simpa using hp
  cases hfind : container.children.find? (isMatchingDS fn) with
  | some ds0 =>
    obtain ⟨hroot, _, _⟩ := add_ok_update_branch root container dir fn caption
      fresh sample root' n cap ds0 hc hfind hadd
    refine ⟨container.withChildren
      (updateFirstMatch dir fn (dsCaptionOf caption fn) fresh
        container.children).1, ?_, ?_, ?_⟩
    · rw [hroot]
      exact findTag_after_update root container _ hc (by simp [htagc])
    · intro i _ hnm
      rw [XElem.children_withChildren]
      exact updateFirstMatch_getD dir fn (dsCaptionOf caption fn) fresh
        container.children i d0 hnm
    · intro hallf
      have hmem := List.mem_of_find?_eq_some hfind
      have hmatch := List.find?_some hfind
      exact absurd hmatch (by simp [hallf ds0 hmem])
  | none =>
    cases hsample : sample with
    | error e =>
      rw [hsample] at hadd
      have hno : hasMatchingDS fn root = false := by
        unfold hasMatchingDS
        rw [hc]
        rw [List.any_eq_false]
        intro y hy
        exact Bool.eq_false_iff.mp
          (Bool.eq_false_iff.mpr (List.find?_eq_none.mp hfind y hy))
      rw [add_textscan_error_of_no_match root dir fn caption fresh e hno]
        at hadd
      cases hadd
    | ok ht =>
      rw [hsample] at hadd
      obtain ⟨hroot, _, _⟩ := add_ok_create_branch root container dir fn
        caption fresh root' n cap ht.1 ht.2 hc hfind (by
          simpa using hadd)
      refine ⟨container.withChildren (container.children ++
        [newDatasourceElem dir fn (dsCaptionOf caption fn) fresh ht.1 ht.2]),
        ?_, ?_, ?_⟩
      · rw [hroot]
        exact findTag_after_update root container _ hc (by simp [htagc])
      · intro i hi _
        rw [XElem.children_withChildren]
        exact List.getD_append _ _ d0 i hi
      · intro _ hs ts hseq
        have hht : ht = (hs, ts) := by injection hseq
        rw [XElem.children_withChildren, hht]

/-- Datasource element without any connection child. -/
def oddDS : XElem := XElem.mk "datasource" [("name", "weird")] []

/-- Workbook whose container holds only that non-matching element. -/
def rootOdd : XElem :=
  XElem.mk "workbook" [] [XElem.mk "datasources" [] [oddDS]]

/-- The workbook after a fresh insert next to the untouched odd element. -/
def rootOddAfter : XElem :=
  XElem.mk "workbook" []
    [XElem.mk "datasources" []
      [oddDS,
       newDatasourceElem "C:/dir" "d.csv" "d.csv" "textscan.f" ["a"]
         ["string"]]]

/-- Claim C10, witness: a datasource lacking a connection child survives
the insert unchanged; a fresh element is appended after it. -/
theorem C10_witness :
    ∃ container',
      rootOddAfter.findTag "datasources" = some container' ∧
      (∀ i, i < (XElem.mk "datasources" [] [oddDS]).children.length →
        isMatchingDS "d.csv"
          ((XElem.mk "datasources" [] [oddDS]).children.getD i default) =
            false →
        container'.children.getD i default =
          (XElem.mk "datasources" [] [oddDS]).children.getD i default) ∧
      ((∀ c ∈ (XElem.mk "datasources" [] [oddDS]).children,
          isMatchingDS "d.csv" c = false) →
        ∀ hs ts,
          (Except.ok (["a"], ["string"]) :
            Except String (List String × List String)) = .ok (hs, ts) →
          container'.children =
            (XElem.mk "datasources" [] [oddDS]).children ++
              [newDatasourceElem "C:/dir" "d.csv" (dsCaptionOf none "d.csv")
                "textscan.f" hs ts]) :=
  C10_nonmatching_untouched rootOdd (XElem.mk "datasources" [] [oddDS])
    "C:/dir" "d.csv" none "textscan.f" (.ok (["a"], ["string"]))
    rootOddAfter "textscan.f" "d.csv" default rfl rfl

theorem updateFirstMatch_length (dir fn cap nm : String) (l : List XElem) :
    (updateFirstMatch dir fn cap nm l).1.length = l.length := by
  induction l with
  | nil => rfl
  | cons c cs ih =>
    by_cases hm : isMatchingDS fn c
    · simp [updateFirstMatch, hm]
    · simp [updateFirstMatch, hm, ih]

/-- Every worksheet with a `table/view` node already references the
name (the post-first-run situation). -/
def allWorksheetsLinked (nm : String) (root : XElem) : Bool :=
  (worksheetNodes root).all (fun ws =>
    match firstViewOf ws with
    | none => true
    | some v => viewLinked nm v)

theorem wsNewlyLinkable_false_of_linked (nm : String) (ws : XElem)
    (h : (match firstViewOf ws with
      | none => true
      | some v => viewLinked nm v) = true) :
    wsNewlyLinkable nm ws = false := by
  unfold wsNewlyLinkable
  cases hf : firstViewOf ws with
  | none => rfl
  | some v =>
    rw [hf] at h
    dsimp only at h ⊢
    simp [h]

/-- Claim C1: re-running against a workbook that already holds a textscan
datasource for the filename updates it in place — the returned name is
the existing datasource's (non-empty) name, the container keeps both its
matching-datasource count and its child count (no second element is
appended) — and when every worksheet's link set already contains that
name, the linker adds zero new worksheet links. -/
theorem C1_idempotent_rerun (root container ds0 : XElem) (dir fn : String)
    (caption : Option String) (fresh : String)
    (sample : Except String (List String × List String))
    (root' : XElem) (n cap n0 : String)
    (hc : root.findTag "datasources" = some container)
    (hfind : container.children.find? (isMatchingDS fn) = some ds0)
    (hname : ds0.getAttr "name" = some n0) (hn0 : n0 ≠ "")
    (hadd : add_textscan_datasource root dir fn caption fresh sample =
      .ok (root', n, cap)) :
    n = n0 ∧
    (∃ container', root'.findTag "datasources" = some container' ∧
      List.countP (isMatchingDS fn) container'.children =
        List.countP (isMatchingDS fn) container.children ∧
      container'.children.length = container.children.length) ∧
    (allWorksheetsLinked n root' = true →
      (attach_datasource_to_all_worksheets root' n cap).2 = 0) := by
  obtain ⟨hroot, hn, hcap⟩ := add_ok_update_branch root container dir fn
    caption fresh sample root' n cap ds0 hc hfind hadd
  have htagc : container.tag = "datasources" := by
    have hp := List.find?_some (hc :
      root.children.find? (fun x => decide (x.tag = "datasources")) =
        some container)
    simpa using hp
  refine ⟨?_, ⟨container.withChildren
    (updateFirstMatch dir fn (dsCaptionOf caption fn) fresh
      container.children).1, ?_, ?_, ?_⟩, ?_⟩
  · rw [hn]
    exact updateMatched_snd_name dir fn (dsCaptionOf caption fn) fresh ds0
      n0 hname hn0
  · rw [hroot]
    exact findTag_after_update root container _ hc (by simp [htagc])
  · rw [XElem.children_withChildren]
    exact updateFirstMatch_countP dir fn (dsCaptionOf caption fn) fresh
      container.children
  · rw [XElem.children_withChildren]
    exact updateFirstMatch_length dir fn (dsCaptionOf caption fn) fresh
      container.children
  · intro hall
    rw [attach_count]
    rw [List.countP_eq_zero]
    intro ws hws
    unfold allWorksheetsLinked at hall
    have hws2 := List.all_eq_true.mp hall ws hws
    simp [wsNewlyLinkable_false_of_linked n ws hws2]

/-- The textscan datasource as the first run inserts it. -/
def dsRun1 : XElem :=
  newDatasourceElem "C:/dir" "d.csv" "d.csv" "textscan.n1" ["a"] ["string"]

/-- A worksheet already linked to that datasource. -/
def wsRun1 : XElem :=
  XElem.mk "worksheet" []
    [XElem.mk "table" []
      [XElem.mk "view" []
        [XElem.mk "datasources" []
          [XElem.mk "datasource"
            [("caption", "d.csv"), ("name", "textscan.n1")] []]]]]

/-- The workbook as the first run leaves it. -/
def rootRun1 : XElem :=
  XElem.mk "workbook" []
    [XElem.mk "datasources" [] [dsRun1],
     XElem.mk "worksheets" [] [wsRun1]]

/-- Claim C1, witness: the second run over the once-modified workbook is
literally the identity on the tree, returns the first run's name, and
attaches zero worksheets. -/
theorem C1_witness :
    add_textscan_datasource rootRun1 "C:/dir" "d.csv" none "textscan.f2"
      (.ok (["a"], ["string"])) = .ok (rootRun1, "textscan.n1", "d.csv") ∧
    "textscan.n1" = "textscan.n1" ∧
    allWorksheetsLinked "textscan.n1" rootRun1 = true ∧
    (attach_datasource_to_all_worksheets rootRun1 "textscan.n1" "d.csv").2 =
      0 :=
  ⟨rfl,
   (C1_idempotent_rerun rootRun1 (XElem.mk "datasources" [] [dsRun1]) dsRun1
     "C:/dir" "d.csv" none "textscan.f2" (.ok (["a"], ["string"])) rootRun1
     "textscan.n1" "d.csv" "textscan.n1" rfl rfl rfl (by decide) rfl).1,
   rfl,
   (C1_idempotent_rerun rootRun1 (XElem.mk "datasources" [] [dsRun1]) dsRun1
     "C:/dir" "d.csv" none "textscan.f2" (.ok (["a"], ["string"])) rootRun1
     "textscan.n1" "d.csv" "textscan.n1" rfl rfl rfl (by decide) rfl).2.2
     rfl⟩

end InsertTableauCsv
